import Mathlib

/-!
Verification development for the dependency-resolution core of the `typings`
package manager (`src/lib/dependencies.ts` and `src/utils/fs.ts`).

The TypeScript source is shallowly embedded as executable Lean definitions:

* JSON manifests become the `Manifest` structure (all fields optional, with
  the fields the resolver actually reads).
* The filesystem / network and the `findUp` / `findConfigFile` helpers from
  `src/utils/find.ts` (not part of the provided sources) are oracles packed
  into the `FS` structure.
* Promises are collapsed: each asynchronous operation becomes a total
  function returning `Except RErr DependencyTree`; `invariant` failures in
  `checkCircularDependency` become `RErr.circular`, and recursion depth is
  bounded by an explicit fuel (`RErr.outOfFuel` when exhausted), since the
  JavaScript recursion is not structurally terminating.
* The `parent` back-reference of a tree node (used by the source only for
  cycle detection, which walks `parent.src` links, and for URL base
  resolution, which reads `parent.src`) is represented by the chain of
  ancestor `src` values, nearest ancestor first.
* JavaScript object maps become ordered association lists; `xtend` becomes
  `extendMap`, which overwrites existing keys in place and appends new keys,
  matching JS assignment order.
-/

/-- Separator for the simplified model of Node's path functions. -/
def slashStr : String := "/"

/-- Current-directory token used by the `dirname` model. -/
def dotStr : String := "."

/-- Parent-directory token, used by `join(src, '..', CONFIG_FILE)`. -/
def dotdotStr : String := ".."

/-- From `src/utils/config.ts`: `PROJECT_NAME`. -/
def PROJECT_NAME : String := "typings"

/-- From `src/utils/config.ts`: `CONFIG_FILE` is `typings.json`. -/
def CONFIG_FILE : String := "typings.json"

/-- Ecosystem tag for npm nodes. -/
def npmTag : String := "npm"

/-- Ecosystem tag for bower nodes. -/
def bowerTag : String := "bower"

/-- Manifest filename searched upward for npm. -/
def packageJsonFile : String := "package.json"

/-- Manifest filename searched upward for bower. -/
def bowerJsonFile : String := "bower.json"

/-- Directory component used by `resolveNpmDependency`. -/
def nodeModulesDir : String := "node_modules"

/-- Bower runtime-configuration filename. -/
def bowerrcFile : String := ".bowerrc"

/-- Default bower components directory. -/
def bowerComponentsDir : String := "bower_components"

/-- Default npm entry file (`packageJson.main || 'index.js'`). -/
def indexJsFile : String := "index.js"

/-- Extension recognised by `isDefinition`. -/
def dtsExt : String := ".d.ts"

/-- Scheme prefix recognised by `isHttp`. -/
def httpScheme : String := "http://"

/-- Secure scheme prefix recognised by `isHttp`. -/
def httpsScheme : String := "https://"

/-- Dependency-string prefix for npm. -/
def npmScheme : String := "npm:"

/-- Dependency-string prefix for bower. -/
def bowerScheme : String := "bower:"

/-- Dependency-string prefix for github. -/
def githubScheme : String := "github:"

/-- Dependency-string prefix for local files. -/
def fileScheme : String := "file:"

/-- Base URL a github descriptor resolves to in the model. -/
def githubBase : String := "https://raw.githubusercontent.com/"

/-- Dependency-descriptor tag for file dependencies. -/
def fileTag : String := "file"

/-- Dependency-descriptor tag for http dependencies. -/
def httpTag : String := "http"

/-- Dependency-descriptor tag for github dependencies. -/
def githubTag : String := "github"

/-- The path separator as a character. -/
def slashChar : Char := '/'

/-- String prefix test, implemented over the character list so the kernel
can evaluate it. -/
def strStartsWith (s pre : String) : Bool := pre.data.isPrefixOf s.data

/-- String suffix test, implemented over the character list so the kernel
can evaluate it. -/
def strEndsWith (s suf : String) : Bool := suf.data.isSuffixOf s.data

/-- Drop the first `n` characters of a string, over the character list. -/
def strDrop (s : String) (n : Nat) : String := String.mk (s.data.drop n)

/-- Split a character list on a separator (always returns at least one
group). -/
def splitOnChar (sep : Char) : List Char → List (List Char)
  | [] => [[]]
  | c :: cs =>
      match splitOnChar sep cs with
      | [] => [[c]]
      | g :: gs => if c = sep then [] :: g :: gs else (c :: g) :: gs

/-- Join character-list groups with the path separator. -/
def joinSlash : List (List Char) → List Char
  | [] => []
  | [g] => g
  | g :: gs => g ++ slashChar :: joinSlash gs

/-- Modelled from the spec (§4.A, `src/utils/path.ts` is not among the
provided sources): a location is HTTP when its scheme is `http` or `https`. -/
def isHttp (s : String) : Bool :=
  strStartsWith s httpScheme || strStartsWith s httpsScheme

/-- Modelled from the spec (§4.A, `src/utils/path.ts` is not among the
provided sources): a definition file is one ending in `.d.ts`. -/
def isDefinition (s : String) : Bool :=
  strEndsWith s dtsExt

/-- Simplified model of Node's `path.join` on two segments (no
normalisation; paths are treated as opaque tokens by every claim). -/
def pathJoin (a b : String) : String := a ++ slashStr ++ b

/-- Model of the three-argument `join(src, '..', CONFIG_FILE)`. -/
def pathJoin3 (a b c : String) : String := pathJoin (pathJoin a b) c

/-- Simplified model of Node's `path.resolve` on two segments. -/
def pathResolve (base rel : String) : String :=
  if strStartsWith rel slashStr then rel else base ++ slashStr ++ rel

/-- Model of the three-argument `resolve(componentPath, name, 'bower.json')`. -/
def pathResolve3 (a b c : String) : String := pathResolve (pathResolve a b) c

/-- Simplified model of Node's `path.dirname`. -/
def dirname (s : String) : String :=
  match (splitOnChar slashChar s.data).dropLast with
  | [] => dotStr
  | ps => String.mk (joinSlash ps)

/-- Simplified model of Node's `url.resolve`, used for a child location
relative to an HTTP parent. -/
def resolveUrl (base rel : String) : String :=
  if isHttp rel then rel else dirname base ++ slashStr ++ rel

/-- JavaScript `a || b` on an optional string: the default is taken when the
value is absent or falsy (the empty string). -/
def jsOrS (o : Option String) (d : String) : String :=
  match o with
  | some s => if s = "" then d else s
  | none => d

/-- The `browser` manifest field: either a string entry point or a mapping
used to remap module specifiers (spec §3). -/
inductive BrowserField : Type where
  | str (s : String)
  | map (m : List (String × String))
deriving DecidableEq

/-- Value of one dependency-map entry: a plain string for npm and bower
manifests, and a string or ordered list of strings for the native config
(`arrify` flattens both shapes). -/
inductive DepValue : Type where
  | one (s : String)
  | many (l : List String)
deriving DecidableEq

/-- Model of the `arrify` package: wrap a single value in a list, keep a
list as-is. -/
def arrify (v : DepValue) : List String :=
  match v with
  | .one s => [s]
  | .many l => l

/-- The universal shape of a parsed JSON manifest, holding every field any
of the three readers (`package.json`, `bower.json`, `typings.json`) or
`.bowerrc` inspects.  Unknown JSON keys are never read, so they are not
modelled. -/
structure Manifest where
  name : Option String := none
  version : Option String := none
  main : Option String := none
  browser : Option BrowserField := none
  typings : Option String := none
  browserTypings : Option String := none
  ambient : Bool := false
  dependencies : List (String × DepValue) := []
  devDependencies : List (String × DepValue) := []
  ambientDependencies : List (String × DepValue) := []
  ambientDevDependencies : List (String × DepValue) := []
  optionalDependencies : List (String × DepValue) := []
  directory : Option String := none
deriving DecidableEq

/-- The chain of `src` values reachable from a node by `parent` links,
nearest ancestor first.  This is the precise information the source uses a
`parent` reference for: `checkCircularDependency` walks exactly these
values, and `resolveFileDependency` reads the head (`parent.src`). -/
abbrev Chain := List (Option String)

/-- Generic payload of a dependency-tree node; the type parameter is the
type of child nodes stored in the four dependency maps.  Mirrors the
`DependencyTree` interface and `DEFAULT_DEPENDENCY` defaults. -/
structure TreeData (α : Type) where
  type : Option String := none
  ambient : Bool := false
  missing : Bool := false
  name : Option String := none
  version : Option String := none
  src : Option String := none
  parent : Option Chain := none
  main : Option String := none
  browser : Option BrowserField := none
  typings : Option String := none
  browserTypings : Option String := none
  dependencies : List (String × α) := []
  devDependencies : List (String × α) := []
  ambientDependencies : List (String × α) := []
  ambientDevDependencies : List (String × α) := []

/-- A resolved dependency tree: a node payload whose dependency maps hold
further trees. -/
inductive DependencyTree : Type where
  | mk (data : TreeData DependencyTree)

/-- Projection to the payload of a tree node. -/
def DependencyTree.data : DependencyTree → TreeData DependencyTree
  | .mk d => d

namespace DependencyTree

/-- The `type` field of a node. -/
def type (t : DependencyTree) : Option String := t.data.type

/-- The `ambient` field of a node. -/
def ambient (t : DependencyTree) : Bool := t.data.ambient

/-- The `missing` field of a node. -/
def missing (t : DependencyTree) : Bool := t.data.missing

/-- The `name` field of a node. -/
def name (t : DependencyTree) : Option String := t.data.name

/-- The `version` field of a node. -/
def version (t : DependencyTree) : Option String := t.data.version

/-- The `src` field of a node. -/
def src (t : DependencyTree) : Option String := t.data.src

/-- The `parent` back-reference of a node, as the chain of ancestor `src`
values (`none` when the node has no parent). -/
def parent (t : DependencyTree) : Option Chain := t.data.parent

/-- The `main` field of a node. -/
def main (t : DependencyTree) : Option String := t.data.main

/-- The `browser` field of a node. -/
def browser (t : DependencyTree) : Option BrowserField := t.data.browser

/-- The `typings` field of a node. -/
def typings (t : DependencyTree) : Option String := t.data.typings

/-- The `browserTypings` field of a node. -/
def browserTypings (t : DependencyTree) : Option String := t.data.browserTypings

/-- The `dependencies` map of a node. -/
def dependencies (t : DependencyTree) : List (String × DependencyTree) :=
  t.data.dependencies

/-- The `devDependencies` map of a node. -/
def devDependencies (t : DependencyTree) : List (String × DependencyTree) :=
  t.data.devDependencies

/-- The `ambientDependencies` map of a node. -/
def ambientDependencies (t : DependencyTree) : List (String × DependencyTree) :=
  t.data.ambientDependencies

/-- The `ambientDevDependencies` map of a node. -/
def ambientDevDependencies (t : DependencyTree) : List (String × DependencyTree) :=
  t.data.ambientDevDependencies

end DependencyTree

/-- `DEFAULT_DEPENDENCY` from the source: a non-missing node with every
field absent and all four maps empty. -/
def DEFAULT_DEPENDENCY : DependencyTree := .mk {}

/-- `MISSING_DEPENDENCY` from the source: the default node with
`missing := true`. -/
def MISSING_DEPENDENCY : DependencyTree := .mk { missing := true }

/-- JS object assignment `m[k] = v`: overwrite the value in place when the
key exists, append otherwise. -/
def setKey {α : Type} (m : List (String × α)) (k : String) (v : α) :
    List (String × α) :=
  if m.any (fun p => p.1 = k) then
    m.map (fun p => if p.1 = k then (k, v) else p)
  else
    m ++ [(k, v)]

/-- Model of `xtend(m1, m2)`: copy the entries of `m2` over `m1` in order,
so `m2` wins every key collision. -/
def extendMap {α : Type} (m1 m2 : List (String × α)) : List (String × α) :=
  m2.foldl (fun acc p => setKey acc p.1 p.2) m1

/-- Key lookup in an association-list map (first binding wins, which after
`setKey`/`extendMap` is the JS object value). -/
def lookupMap {α : Type} (m : List (String × α)) (k : String) : Option α :=
  (m.find? (fun p => p.1 = k)).map (fun p => p.2)

/-- `Object.keys` of an association-list map. -/
def mapKeys {α : Type} (m : List (String × α)) : List String :=
  m.map (fun p => p.1)

/-- The guard of the `main`/`typings` override block in `mergeDependencies`:
`typeof browser === 'string'` holds only for the string form. -/
def isStringBrowser (b : Option BrowserField) : Bool :=
  match b with
  | some (.str _) => true
  | _ => false

/-- The condition of the override block in `mergeDependencies`
(lines 440–445): some of `main`, `browser`, `typings`, `browserTypings`
holds a string (`typeof x === 'string'`). -/
def definesEntryString (t : DependencyTree) : Bool :=
  t.main.isSome || isStringBrowser t.browser ||
    t.typings.isSome || t.browserTypings.isSome

/-- One iteration of the `trees.forEach` loop in `mergeDependencies`
(lines 436–457): copy the six entry-related fields when any of the four
entry fields is a string, then merge three of the four dependency maps. -/
def mergeStep (dependency : TreeData DependencyTree) (dependencyTree : DependencyTree) :
    TreeData DependencyTree :=
  let d1 :=
    if definesEntryString dependencyTree then
      { dependency with
          name := dependencyTree.name
          src := dependencyTree.src
          main := dependencyTree.main
          browser := dependencyTree.browser
          typings := dependencyTree.typings
          browserTypings := dependencyTree.browserTypings }
    else dependency
  { d1 with
      dependencies := extendMap d1.dependencies dependencyTree.dependencies
      devDependencies := extendMap d1.devDependencies dependencyTree.devDependencies
      ambientDependencies :=
        extendMap d1.ambientDependencies dependencyTree.ambientDependencies }

/-- `mergeDependencies` (lines 433–460): fold the subtrees over a fresh
default node.  Note the loop body never touches `ambientDevDependencies`,
`missing` or `parent`. -/
def mergeDependencies (trees : List DependencyTree) : DependencyTree :=
  .mk (trees.foldl mergeStep DEFAULT_DEPENDENCY.data)

/-- `checkCircularDependency` (lines 420–428): walk the parent chain and
fail when any ancestor `src` equals the file about to be read.  `true`
means the walk passed (the source's `invariant` did not throw). -/
def checkCircularDependency (parent : Option Chain) (filename : String) : Bool :=
  match parent with
  | none => true
  | some chain => chain.all (fun s => s ≠ some filename)

/-- The `src` of the direct parent (`parent.src` in the source), when a
parent exists. -/
def headSrc (parent : Option Chain) : Option String :=
  match parent with
  | some (s :: _) => s
  | _ => none

/-- The parent chain seen by the children of a node that was created with
source path `src` and parent `parent`. -/
def childChain (src : String) (parent : Option Chain) : Chain :=
  some src :: parent.getD []

/-- Options for resolving dependencies (`interfaces/main.ts` / `Options`):
absent `dev`/`ambient` flags behave as `false`. -/
structure Options where
  cwd : String
  dev : Bool := false
  ambient : Bool := false
deriving DecidableEq

/-- A parsed dependency descriptor `{ type, location }`. -/
structure Dependency where
  type : String
  location : String
deriving DecidableEq

/-- Modelled from the spec (§4.D, `src/utils/parse.ts` is not among the
provided sources): parse a short-form dependency string into a descriptor;
a github form resolves to an HTTP location, an unrecognised string is a
file path. -/
def parseDependency (raw : String) : Dependency :=
  if strStartsWith raw npmScheme then ⟨npmTag, strDrop raw 4⟩
  else if strStartsWith raw bowerScheme then ⟨bowerTag, strDrop raw 6⟩
  else if strStartsWith raw githubScheme then ⟨githubTag, githubBase ++ strDrop raw 7⟩
  else if strStartsWith raw fileScheme then ⟨fileTag, strDrop raw 5⟩
  else if isHttp raw then ⟨httpTag, raw⟩
  else ⟨fileTag, raw⟩

/-- The environment a resolution runs in: `read` models a successful
`readJson`/`readConfigFrom` of a manifest at a path or URL (`none` is a
rejected read), and `findUp`/`findConfigFile` model the upward search of
`src/utils/find.ts` (not among the provided sources; behaviour per spec
§4.E "Discovery"). -/
structure FS where
  read : String → Option Manifest
  findUp : String → String → Option String
  findConfigFile : String → Option String

/-- Failures of the embedded resolver: a thrown `CircularDependency`
invariant (carrying `parent.src`, the value the source interpolates into
the message), or fuel exhaustion (an artifact of embedding the unbounded
JS recursion). -/
inductive RErr : Type where
  | circular (src : Option String)
  | outOfFuel
deriving DecidableEq

/-- Result of resolving one tree. -/
abbrev RTree := Except RErr DependencyTree

/-- Result of resolving one dependency map. -/
abbrev RMap := Except RErr (List (String × DependencyTree))

/-- The mutually recursive functions of `dependencies.ts`, gathered in one
record so the recursion can be tied by fuel: level `n + 1` functions call
level `n` functions. -/
structure Resolvers where
  npmFrom : String → Options → Option Chain → RTree
  bowerFrom : String → String → Options → Option Chain → RTree
  typeFrom : String → Options → Option Chain → RTree
  npmMap : String → List String → Options → Chain → RMap
  bowerMap : String → List String → Options → Chain → RMap
  typeMap : String → List (String × DepValue) → Options → Chain → RMap
  tryCands : Options → String → Chain → DependencyTree → List String → RTree
  depResolve : Dependency → Options → Option Chain → RTree
  npmDep : String → Options → Option Chain → RTree
  bowerDep : String → Options → Option Chain → RTree
  fileDep : String → Options → Option Chain → RTree

/-- `extend(options, { dev: false, ambient: false, cwd })`: the options
every non-root child expansion receives from the npm and native map
resolvers. -/
def forcedResolveOptions (options : Options) (cwd : String) : Options :=
  { options with dev := false, ambient := false, cwd := cwd }

/-- `extend(options, { dev: false, ambient: false })`: the options every
non-root child expansion receives from the bower map resolver. -/
def forcedFlagsOptions (options : Options) : Options :=
  { options with dev := false, ambient := false }

/-- `resolveBowerComponentPath` (lines 212–222): read `.bowerrc` beside the
path and take its `directory` (default `bower_components`); a failed read
also falls back to the default, so this operation never fails. -/
def resolveBowerComponentPath (fs : FS) (path : String) : String :=
  match fs.read (pathResolve path bowerrcFile) with
  | some bowerrc => pathResolve path (jsOrS bowerrc.directory bowerComponentsDir)
  | none => pathResolve path bowerComponentsDir

/-- `resolveDependency` (lines 61–71): dispatch on the descriptor type;
anything that is not npm or bower is resolved as a file dependency. -/
def resolveDependencyStep (r : Resolvers) (dependency : Dependency)
    (options : Options) (parent : Option Chain) : RTree :=
  if dependency.type = npmTag then r.npmDep dependency.location options parent
  else if dependency.type = bowerTag then r.bowerDep dependency.location options parent
  else r.fileDep dependency.location options parent

/-- `resolveNpmDependency` (lines 76–90): search upward for
`node_modules/NAME`; a `.d.ts` result short-circuits to a file dependency;
a failed search yields a missing npm node (without `src` or `parent`). -/
def resolveNpmDependencyStep (fs : FS) (r : Resolvers) (name : String)
    (options : Options) (parent : Option Chain) : RTree :=
  match fs.findUp options.cwd (pathJoin nodeModulesDir name) with
  | some modulePath =>
      if isDefinition modulePath then r.fileDep modulePath options parent
      else r.npmFrom modulePath options parent
  | none => .ok (.mk { missing := true, type := some npmTag })

/-- `resolveBowerDependency` (lines 95–111): resolve the module inside the
bower components directory; a `.d.ts` path short-circuits to a file
dependency.  (`resolveBowerComponentPath` never rejects, so the missing
branch of the source is unreachable.) -/
def resolveBowerDependencyStep (fs : FS) (r : Resolvers) (name : String)
    (options : Options) (parent : Option Chain) : RTree :=
  let componentPath := resolveBowerComponentPath fs options.cwd
  let modulePath := pathResolve componentPath name
  if isDefinition modulePath then r.fileDep modulePath options parent
  else r.bowerFrom modulePath componentPath options parent

/-- `resolveFileDependency` (lines 116–138): compute the source location
(HTTP as-is, relative to an HTTP parent, or against `cwd`); a non-`.d.ts`
location is read as a native config, a `.d.ts` location becomes a direct
typings node. -/
def resolveFileDependencyStep (r : Resolvers) (location : String)
    (options : Options) (parent : Option Chain) : RTree :=
  let src :=
    if isHttp location then location
    else
      match parent with
      | some (some psrc :: _) =>
          if isHttp psrc then resolveUrl psrc location
          else pathResolve options.cwd location
      | _ => pathResolve options.cwd location
  if isDefinition src = false then r.typeFrom src options parent
  else .ok (.mk { type := some PROJECT_NAME, typings := some src, src := some src,
                  parent := parent })

/-- The manifest-expansion body of `resolveNpmDependencyFrom` (lines
267–293): build the node (`main` defaulting to `index.js`), resolve
regular+optional and dev dependency maps, then merge the sibling
`typings.json` overlay over both. -/
def expandNpmManifest (r : Resolvers) (src : String) (options : Options)
    (parent : Option Chain) (packageJson : Manifest) : RTree :=
  let tree : TreeData DependencyTree :=
    { name := packageJson.name
      version := packageJson.version
      main := some (jsOrS packageJson.main indexJsFile)
      browser := packageJson.browser
      typings := packageJson.typings
      browserTypings := packageJson.browserTypings
      type := some npmTag
      src := some src
      parent := parent }
  let selfChain := childChain src parent
  let dependencyMap := extendMap packageJson.dependencies packageJson.optionalDependencies
  let devDependencyMap := if options.dev then packageJson.devDependencies else []
  match r.npmMap src (mapKeys dependencyMap) options selfChain with
  | .error e => .error e
  | .ok dependencies =>
    match r.npmMap src (mapKeys devDependencyMap) options selfChain with
    | .error e => .error e
    | .ok devDependencies =>
      match r.typeFrom (pathJoin3 src dotdotStr CONFIG_FILE) options (some selfChain) with
      | .error e => .error e
      | .ok typedPackage =>
          .ok (.mk { tree with
            dependencies := extendMap dependencies typedPackage.dependencies
            devDependencies := extendMap devDependencies typedPackage.devDependencies })

/-- `resolveNpmDependencyFrom` (lines 262–303): cycle-check, read
`package.json` and expand it; a failed read yields a missing npm node. -/
def resolveNpmDependencyFromStep (fs : FS) (r : Resolvers) (src : String)
    (options : Options) (parent : Option Chain) : RTree :=
  if checkCircularDependency parent src = false then .error (.circular (headSrc parent))
  else
    match fs.read src with
    | some packageJson => expandNpmManifest r src options parent packageJson
    | none => .ok (.mk { missing := true, type := some npmTag, src := some src,
                         parent := parent })

/-- The manifest-expansion body of `resolveBowerDependencyFrom` (lines
171–197): build the node, resolve regular and dev dependency maps from
the components directory, then merge the sibling `typings.json` overlay
over both. -/
def expandBowerManifest (r : Resolvers) (src componentPath : String) (options : Options)
    (parent : Option Chain) (bowerJson : Manifest) : RTree :=
  let tree : TreeData DependencyTree :=
    { name := bowerJson.name
      version := bowerJson.version
      main := bowerJson.main
      browser := bowerJson.browser
      typings := bowerJson.typings
      browserTypings := bowerJson.browserTypings
      type := some bowerTag
      src := some src
      parent := parent }
  let selfChain := childChain src parent
  let dependencyMap := bowerJson.dependencies
  let devDependencyMap := if options.dev then bowerJson.devDependencies else []
  match r.bowerMap componentPath (mapKeys dependencyMap) options selfChain with
  | .error e => .error e
  | .ok dependencies =>
    match r.bowerMap componentPath (mapKeys devDependencyMap) options selfChain with
    | .error e => .error e
    | .ok devDependencies =>
      match r.typeFrom (pathJoin3 src dotdotStr CONFIG_FILE) options (some selfChain) with
      | .error e => .error e
      | .ok typedPackage =>
          .ok (.mk { tree with
            dependencies := extendMap dependencies typedPackage.dependencies
            devDependencies := extendMap devDependencies typedPackage.devDependencies })

/-- `resolveBowerDependencyFrom` (lines 161–207): cycle-check, read
`bower.json` and expand it; a failed read yields a missing bower node. -/
def resolveBowerDependencyFromStep (fs : FS) (r : Resolvers) (src componentPath : String)
    (options : Options) (parent : Option Chain) : RTree :=
  if checkCircularDependency parent src = false then .error (.circular (headSrc parent))
  else
    match fs.read src with
    | some bowerJson => expandBowerManifest r src componentPath options parent bowerJson
    | none => .ok (.mk { missing := true, type := some bowerTag, src := some src,
                         parent := parent })

/-- The manifest-expansion body of `resolveTypeDependencyFrom` (lines
343–376): build the node (`ambient` coerced to a boolean), select which
maps to expand from the `dev`/`ambient` options, resolve all four maps
and store them. -/
def expandTypeManifest (r : Resolvers) (src : String) (options : Options)
    (parent : Option Chain) (config : Manifest) : RTree :=
  let tree : TreeData DependencyTree :=
    { name := config.name
      main := config.main
      browser := config.browser
      typings := config.typings
      browserTypings := config.browserTypings
      ambient := config.ambient
      type := some PROJECT_NAME
      src := some src
      parent := parent }
  let selfChain := childChain src parent
  let dependencyMap := config.dependencies
  let devDependencyMap := if options.dev then config.devDependencies else []
  let ambientDependencyMap := if options.ambient then config.ambientDependencies else []
  let ambientDevDependencyMap :=
    if options.ambient && options.dev then config.ambientDevDependencies else []
  match r.typeMap src dependencyMap options selfChain with
  | .error e => .error e
  | .ok dependencies =>
    match r.typeMap src devDependencyMap options selfChain with
    | .error e => .error e
    | .ok devDependencies =>
      match r.typeMap src ambientDependencyMap options selfChain with
      | .error e => .error e
      | .ok ambientDependencies =>
        match r.typeMap src ambientDevDependencyMap options selfChain with
        | .error e => .error e
        | .ok ambientDevDependencies =>
            .ok (.mk { tree with
              dependencies := dependencies
              devDependencies := devDependencies
              ambientDependencies := ambientDependencies
              ambientDevDependencies := ambientDevDependencies })

/-- `resolveTypeDependencyFrom` (lines 338–386): cycle-check, read the
native config and expand it; a failed read yields a missing node tagged
with the project name. -/
def resolveTypeDependencyFromStep (fs : FS) (r : Resolvers) (src : String)
    (options : Options) (parent : Option Chain) : RTree :=
  if checkCircularDependency parent src = false then .error (.circular (headSrc parent))
  else
    match fs.read src with
    | some config => expandTypeManifest r src options parent config
    | none => .ok (.mk { missing := true, type := some PROJECT_NAME, src := some src,
                         parent := parent })

/-- `resolveNpmDependencyMap` (lines 308–318): resolve every key as
`NAME/package.json` searched from the manifest's directory, forcing
`dev := false`, `ambient := false` and `cwd := dirname src` for the
children, and zip the results back with the keys. -/
def resolveNpmDependencyMapGo (r : Resolvers) (src : String) :
    List String → Options → Chain → RMap
  | [], _, _ => .ok []
  | name :: rest, options, parent =>
      let resolveOptions := forcedResolveOptions options (dirname src)
      match r.npmDep (pathJoin name packageJsonFile) resolveOptions (some parent) with
      | .error e => .error e
      | .ok tree =>
          match resolveNpmDependencyMapGo r src rest options parent with
          | .error e => .error e
          | .ok restMap => .ok ((name, tree) :: restMap)

/-- `resolveBowerDependencyMap` (lines 227–242): resolve every key as
`componentPath/NAME/bower.json`, forcing `dev := false` and
`ambient := false` for the children, and zip the results with the keys. -/
def resolveBowerDependencyMapGo (r : Resolvers) (componentPath : String) :
    List String → Options → Chain → RMap
  | [], _, _ => .ok []
  | name :: rest, options, parent =>
      let modulePath := pathResolve3 componentPath name bowerJsonFile
      let resolveOptions := forcedFlagsOptions options
      match r.bowerFrom modulePath componentPath resolveOptions (some parent) with
      | .error e => .error e
      | .ok tree =>
          match resolveBowerDependencyMapGo r componentPath rest options parent with
          | .error e => .error e
          | .ok restMap => .ok ((name, tree) :: restMap)

/-- The `reduce` inside `resolveTypeDependencyMap` (lines 396–412): starting
from `MISSING_DEPENDENCY`, keep the accumulator once it is non-missing,
otherwise parse and resolve the next candidate with `dev := false`,
`ambient := false` and `cwd` forced. -/
def tryCandidatesGo (r : Resolvers) (options : Options) (cwd : String) (parent : Chain) :
    DependencyTree → List String → RTree
  | acc, [] => .ok acc
  | acc, dependency :: rest =>
      if acc.missing then
        let resolveOptions := forcedResolveOptions options cwd
        match r.depResolve (parseDependency dependency) resolveOptions (some parent) with
        | .error e => .error e
        | .ok tree => tryCandidatesGo r options cwd parent tree rest
      else tryCandidatesGo r options cwd parent acc rest

/-- `resolveTypeDependencyMap` (lines 391–415): for each entry, `arrify`
the value and fold the candidates with `tryCandidatesGo`, zipping results
back with the keys. -/
def resolveTypeDependencyMapGo (r : Resolvers) (src : String) :
    List (String × DepValue) → Options → Chain → RMap
  | [], _, _ => .ok []
  | (name, value) :: rest, options, parent =>
      match r.tryCands options (dirname src) parent MISSING_DEPENDENCY (arrify value) with
      | .error e => .error e
      | .ok tree =>
          match resolveTypeDependencyMapGo r src rest options parent with
          | .error e => .error e
          | .ok restMap => .ok ((name, tree) :: restMap)

/-- Resolvers with no fuel left: every operation fails. -/
def noFuelResolvers : Resolvers :=
  { npmFrom := fun _ _ _ => .error .outOfFuel
    bowerFrom := fun _ _ _ _ => .error .outOfFuel
    typeFrom := fun _ _ _ => .error .outOfFuel
    npmMap := fun _ _ _ _ => .error .outOfFuel
    bowerMap := fun _ _ _ _ => .error .outOfFuel
    typeMap := fun _ _ _ _ => .error .outOfFuel
    tryCands := fun _ _ _ _ _ => .error .outOfFuel
    depResolve := fun _ _ _ => .error .outOfFuel
    npmDep := fun _ _ _ => .error .outOfFuel
    bowerDep := fun _ _ _ => .error .outOfFuel
    fileDep := fun _ _ _ => .error .outOfFuel }

/-- One fuel level of the resolver: every function of the record, with its
internal calls going to the previous level. -/
def stepResolvers (fs : FS) (r : Resolvers) : Resolvers :=
  { npmFrom := resolveNpmDependencyFromStep fs r
    bowerFrom := resolveBowerDependencyFromStep fs r
    typeFrom := resolveTypeDependencyFromStep fs r
    npmMap := resolveNpmDependencyMapGo r
    bowerMap := resolveBowerDependencyMapGo r
    typeMap := resolveTypeDependencyMapGo r
    tryCands := tryCandidatesGo r
    depResolve := resolveDependencyStep r
    npmDep := resolveNpmDependencyStep fs r
    bowerDep := resolveBowerDependencyStep fs r
    fileDep := resolveFileDependencyStep r }

/-- The fuel-indexed resolver family. -/
def resolvers (fs : FS) : Nat → Resolvers
  | 0 => noFuelResolvers
  | fuel + 1 => stepResolvers fs (resolvers fs fuel)

/-- Entry to `resolveNpmDependencyFrom` at a given fuel. -/
def resolveNpmDependencyFrom (fs : FS) (fuel : Nat) (src : String)
    (options : Options) (parent : Option Chain) : RTree :=
  (resolvers fs fuel).npmFrom src options parent

/-- Entry to `resolveBowerDependencyFrom` at a given fuel. -/
def resolveBowerDependencyFrom (fs : FS) (fuel : Nat) (src componentPath : String)
    (options : Options) (parent : Option Chain) : RTree :=
  (resolvers fs fuel).bowerFrom src componentPath options parent

/-- Entry to `resolveTypeDependencyFrom` at a given fuel. -/
def resolveTypeDependencyFrom (fs : FS) (fuel : Nat) (src : String)
    (options : Options) (parent : Option Chain) : RTree :=
  (resolvers fs fuel).typeFrom src options parent

/-- Entry to `resolveNpmDependencyMap` at a given fuel. -/
def resolveNpmDependencyMap (fs : FS) (fuel : Nat) (src : String) (keys : List String)
    (options : Options) (parent : Chain) : RMap :=
  (resolvers fs fuel).npmMap src keys options parent

/-- Entry to `resolveBowerDependencyMap` at a given fuel. -/
def resolveBowerDependencyMap (fs : FS) (fuel : Nat) (componentPath : String)
    (keys : List String) (options : Options) (parent : Chain) : RMap :=
  (resolvers fs fuel).bowerMap componentPath keys options parent

/-- Entry to `resolveTypeDependencyMap` at a given fuel. -/
def resolveTypeDependencyMap (fs : FS) (fuel : Nat) (src : String)
    (entries : List (String × DepValue)) (options : Options) (parent : Chain) : RMap :=
  (resolvers fs fuel).typeMap src entries options parent

/-- Entry to the candidate fold of `resolveTypeDependencyMap` at a given
fuel. -/
def tryCandidates (fs : FS) (fuel : Nat) (options : Options) (cwd : String)
    (parent : Chain) (acc : DependencyTree) (candidates : List String) : RTree :=
  (resolvers fs fuel).tryCands options cwd parent acc candidates

/-- Entry to `resolveDependency` at a given fuel. -/
def resolveDependency (fs : FS) (fuel : Nat) (dependency : Dependency)
    (options : Options) (parent : Option Chain) : RTree :=
  (resolvers fs fuel).depResolve dependency options parent

/-- `resolveNpmDependencies` (lines 247–257): search upward for
`package.json` and expand it; a failed search yields a missing npm node. -/
def resolveNpmDependencies (fs : FS) (fuel : Nat) (options : Options) : RTree :=
  match fs.findUp options.cwd packageJsonFile with
  | some packageJsonPath => resolveNpmDependencyFrom fs fuel packageJsonPath options none
  | none => .ok (.mk { missing := true, type := some npmTag })

/-- `resolveBowerDependencies` (lines 143–156): search upward for
`bower.json`, locate the components directory and expand; a failed search
yields a missing bower node. -/
def resolveBowerDependencies (fs : FS) (fuel : Nat) (options : Options) : RTree :=
  match fs.findUp options.cwd bowerJsonFile with
  | some bowerJsonPath =>
      resolveBowerDependencyFrom fs fuel bowerJsonPath
        (resolveBowerComponentPath fs (dirname bowerJsonPath)) options none
  | none => .ok (.mk { missing := true, type := some bowerTag })

/-- `resolveTypeDependencies` (lines 323–333): locate the native config
file and expand it; a failed search yields `extend(MISSING_DEPENDENCY)`,
whose `type` is left undefined. -/
def resolveTypeDependencies (fs : FS) (fuel : Nat) (options : Options) : RTree :=
  match fs.findConfigFile options.cwd with
  | some path => resolveTypeDependencyFrom fs fuel path options none
  | none => .ok MISSING_DEPENDENCY

/-- `resolveDependencies` (lines 49–56): resolve the three ecosystem
subtrees (bower, npm, native, in the order of the `Promise.all` array) and
merge them. -/
def resolveDependencies (fs : FS) (fuel : Nat) (options : Options) : RTree :=
  match resolveBowerDependencies fs fuel options with
  | .error e => .error e
  | .ok bower =>
      match resolveNpmDependencies fs fuel options with
      | .error e => .error e
      | .ok npm =>
          match resolveTypeDependencies fs fuel options with
          | .error e => .error e
          | .ok typed => .ok (mergeDependencies [bower, npm, typed])

/-! ### General lemmas about the three-tree merge -/

/-- The six entry-related fields of a node payload, in source order
(`name`, `src`, `main`, `browser`, `typings`, `browserTypings`). -/
def entryFieldsData (d : TreeData DependencyTree) :
    Option String × Option String × Option String × Option BrowserField ×
      Option String × Option String :=
  (d.name, d.src, d.main, d.browser, d.typings, d.browserTypings)

/-- The six entry-related fields of a tree node. -/
def entryFields (t : DependencyTree) :
    Option String × Option String × Option String × Option BrowserField ×
      Option String × Option String :=
  entryFieldsData t.data

/-- The last tree of a list satisfying the override condition of
`mergeDependencies`, if any. -/
def lastEntryOwner : List DependencyTree → Option DependencyTree
  | [] => none
  | t :: ts =>
      match lastEntryOwner ts with
      | some u => some u
      | none => if definesEntryString t then some t else none

/-- Folding `mergeStep` leaves the six entry fields at those of the last
tree satisfying the override condition, or at the accumulator's when no
tree does. -/
theorem merge_foldl_entryFields (ts : List DependencyTree) :
    ∀ acc : TreeData DependencyTree,
      entryFieldsData (ts.foldl mergeStep acc) =
        match lastEntryOwner ts with
        | some u => entryFields u
        | none => entryFieldsData acc := by
  induction ts with
  | nil => intro acc; rfl
  | cons t ts ih =>
      intro acc
      simp only [List.foldl_cons, lastEntryOwner]
      rw [ih]
      cases h : lastEntryOwner ts with
      | some u => rfl
      | none =>
          cases hd : definesEntryString t with
          | true =>
              simp [hd, mergeStep, entryFieldsData, entryFields,
                DependencyTree.name, DependencyTree.src, DependencyTree.main,
                DependencyTree.browser, DependencyTree.typings,
                DependencyTree.browserTypings]
          | false =>
              simp [hd, mergeStep, entryFieldsData]

/-- One merge step never changes `missing` or `parent`. -/
theorem mergeStep_missing_parent (acc : TreeData DependencyTree) (t : DependencyTree) :
    (mergeStep acc t).missing = acc.missing ∧ (mergeStep acc t).parent = acc.parent := by
  cases hd : definesEntryString t <;> simp [mergeStep, hd]

/-- The merged root is never missing and never has a parent. -/
theorem merge_missing_parent (trees : List DependencyTree) :
    (mergeDependencies trees).missing = false ∧ (mergeDependencies trees).parent = none := by
  have key : ∀ (ts : List DependencyTree) (acc : TreeData DependencyTree),
      (ts.foldl mergeStep acc).missing = acc.missing ∧
        (ts.foldl mergeStep acc).parent = acc.parent := by
    intro ts
    induction ts with
    | nil => intro acc; exact ⟨rfl, rfl⟩
    | cons t ts ih =>
        intro acc
        have h1 := mergeStep_missing_parent acc t
        have h2 := ih (mergeStep acc t)
        simp only [List.foldl_cons]
        exact ⟨h2.1.trans h1.1, h2.2.trans h1.2⟩
  exact key trees DEFAULT_DEPENDENCY.data

/-! ### Shared concrete tokens for counterexamples and witnesses -/

/-- Concrete dependency key. -/
def keyA : String := "a"

/-- Concrete dependency key. -/
def keyB : String := "b"

/-- Concrete dependency key. -/
def keyC : String := "c"

/-- Concrete dependency key. -/
def keyD : String := "d"

/-- Concrete dependency key. -/
def keyE : String := "e"

/-- Concrete manifest name. -/
def nameOne : String := "one"

/-- Concrete manifest name. -/
def nameTwo : String := "two"

/-- Concrete source path. -/
def srcOne : String := "/one/bower.json"

/-- Concrete source path. -/
def srcTwo : String := "/two/package.json"

/-- Concrete entry file. -/
def mainA : String := "main.js"

/-! ### C1: the three-tree merge and the four dependency maps -/

/-- Leaf node used in the C1 evaluation. -/
def c1Leaf : DependencyTree := .mk { src := some srcOne }

/-- Bower subtree for C1, holding one regular dependency. -/
def c1Bower : DependencyTree := .mk { type := some bowerTag, dependencies := [(keyA, c1Leaf)] }

/-- Npm subtree for C1, holding a regular and a dev dependency. -/
def c1Npm : DependencyTree :=
  .mk { type := some npmTag, dependencies := [(keyB, c1Leaf)],
        devDependencies := [(keyD, c1Leaf)] }

/-- Native subtree for C1, holding an ambient and an ambient dev
dependency. -/
def c1Type : DependencyTree :=
  .mk { type := some PROJECT_NAME, ambientDependencies := [(keyC, c1Leaf)],
        ambientDevDependencies := [(keyE, c1Leaf)] }

/-- C1: evaluating `mergeDependencies` on ecosystem subtrees where the
native subtree carries an ambient dev dependency shows that the first
three dependency maps are merged key-wise as the claim states, but the
merged root's `ambientDevDependencies` map is empty: the loop body of
`mergeDependencies` never merges that fourth map, contradicting the
claimed key-wise union for all four maps. -/
theorem claim_C1_merge_drops_ambient_dev :
    c1Type.ambientDevDependencies = [(keyE, c1Leaf)] ∧
    (mergeDependencies [c1Bower, c1Npm, c1Type]).ambientDevDependencies = [] ∧
    (mergeDependencies [c1Bower, c1Npm, c1Type]).dependencies =
      [(keyA, c1Leaf), (keyB, c1Leaf)] ∧
    (mergeDependencies [c1Bower, c1Npm, c1Type]).devDependencies = [(keyD, c1Leaf)] ∧
    (mergeDependencies [c1Bower, c1Npm, c1Type]).ambientDependencies = [(keyC, c1Leaf)] :=
  ⟨rfl, rfl, rfl, rfl, rfl⟩

/-! ### C2: which subtree determines the merged entry fields -/

/-- First subtree of the C2 counterexample: defines `main` as a string. -/
def c2First : DependencyTree :=
  .mk { name := some nameOne, src := some srcOne, main := some mainA }

/-- Second subtree of the C2 counterexample: defines `browser`, but as a
mapping rather than a string. -/
def c2Second : DependencyTree :=
  .mk { name := some nameTwo, src := some srcTwo,
        browser := some (.map [(keyA, keyB)]) }

/-- C2 counterexample: in the triple `[c2First, c2Second, default]` the
last subtree defining any of the four entry fields is `c2Second` (its
`browser` is defined, while the third subtree defines none), yet the
merged node keeps `c2First`'s `name` and drops `c2Second`'s `browser`:
the source tests `typeof x === 'string'`, and a `browser` mapping does
not trigger the override. -/
theorem claim_C2_counterexample :
    (c2Second.main.isSome || c2Second.browser.isSome ||
      c2Second.typings.isSome || c2Second.browserTypings.isSome) = true ∧
    (DEFAULT_DEPENDENCY.main.isSome || DEFAULT_DEPENDENCY.browser.isSome ||
      DEFAULT_DEPENDENCY.typings.isSome || DEFAULT_DEPENDENCY.browserTypings.isSome) = false ∧
    (mergeDependencies [c2First, c2Second, DEFAULT_DEPENDENCY]).name = some nameOne ∧
    (mergeDependencies [c2First, c2Second, DEFAULT_DEPENDENCY]).browser = none ∧
    c2Second.name = some nameTwo ∧
    c2Second.browser = some (.map [(keyA, keyB)]) ∧
    some nameOne ≠ some nameTwo :=
  ⟨rfl, rfl, rfl, rfl, rfl, rfl, by decide⟩

/-- C2 (amended): for every triple of subtrees, the merged node's `name`,
`src`, `main`, `browser`, `typings` and `browserTypings` are those of the
last subtree in which one of the four entry fields holds a string value
(`definesEntryString`); when no subtree holds one, all six stay
undefined. -/
theorem claim_C2_last_string_definer_wins (t1 t2 t3 : DependencyTree) :
    entryFields (mergeDependencies [t1, t2, t3]) =
      match lastEntryOwner [t1, t2, t3] with
      | some u => entryFields u
      | none => (none, none, none, none, none, none) := by
  have h := merge_foldl_entryFields [t1, t2, t3] DEFAULT_DEPENDENCY.data
  have hm : entryFields (mergeDependencies [t1, t2, t3]) =
      entryFieldsData ([t1, t2, t3].foldl mergeStep DEFAULT_DEPENDENCY.data) := rfl
  rw [hm, h]
  cases lastEntryOwner [t1, t2, t3] <;> rfl

/-! ### C10: shape of the merged root -/

/-- C10: whenever `resolveDependencies` succeeds, the returned root (the
merge of the three ecosystem subtrees) is not missing and has no parent. -/
theorem claim_C10_root_not_missing (fs : FS) (fuel : Nat) (options : Options)
    (t : DependencyTree) (h : resolveDependencies fs fuel options = .ok t) :
    t.missing = false ∧ t.parent = none := by
  unfold resolveDependencies at h
  split at h
  · simp at h
  · split at h
    · simp at h
    · split at h
      · simp at h
      · simp only [Except.ok.injEq] at h
        rw [← h]
        exact merge_missing_parent _

/-- A filesystem in which no manifest exists anywhere. -/
def emptyFS : FS :=
  { read := fun _ => none, findUp := fun _ _ => none, findConfigFile := fun _ => none }

/-- Options rooted at the current directory, with default flags. -/
def dotOpts : Options := { cwd := dotStr }

/-- The root produced for C10's witness: the merge of three missing
subtrees. -/
def c10Result : DependencyTree :=
  mergeDependencies [.mk { missing := true, type := some bowerTag },
    .mk { missing := true, type := some npmTag }, MISSING_DEPENDENCY]

/-- C10 witness: with every manifest absent, resolution succeeds and the
theorem applies, giving a non-missing, parentless root. -/
theorem claim_C10_root_not_missing_witness :
    resolveDependencies emptyFS 1 dotOpts = .ok c10Result ∧
    c10Result.missing = false ∧ c10Result.parent = none :=
  ⟨rfl, (claim_C10_root_not_missing emptyFS 1 dotOpts c10Result rfl).1,
    (claim_C10_root_not_missing emptyFS 1 dotOpts c10Result rfl).2⟩

/-! ### C3: cycle detection -/

/-- A parent chain each of whose nodes was created only after
`checkCircularDependency` accepted its `src` against the rest of the
chain (and whose `src` values are all present, as the resolver always
sets them). -/
def resolvedChainOk : Chain → Bool
  | [] => true
  | some s :: xs => checkCircularDependency (some xs) s && resolvedChainOk xs
  | none :: _ => false

/-- The circular-dependency walk accepts a filename exactly when no
ancestor `src` equals it. -/
theorem checkCircularDependency_eq_true_iff (chain : Chain) (s : String) :
    checkCircularDependency (some chain) s = true ↔ some s ∉ chain := by
  simp only [checkCircularDependency, List.all_eq_true, decide_eq_true_eq]
  exact ⟨fun h hc => h _ hc rfl, fun h x hx he => h (he ▸ hx)⟩

/-- A successful expansion implies the cycle check accepted its source
path.  Stated for the three manifest expanders at nonzero fuel. -/
theorem from_ok_check (fs : FS) (fuel : Nat) (src cp : String) (options : Options)
    (chain : Chain) (t : DependencyTree)
    (h : resolveNpmDependencyFrom fs (fuel + 1) src options (some chain) = .ok t ∨
      resolveBowerDependencyFrom fs (fuel + 1) src cp options (some chain) = .ok t ∨
      resolveTypeDependencyFrom fs (fuel + 1) src options (some chain) = .ok t) :
    checkCircularDependency (some chain) src = true := by
  cases hc : checkCircularDependency (some chain) src with
  | true => rfl
  | false =>
      exfalso
      rcases h with h | h | h
      · simp [resolveNpmDependencyFrom, resolvers, stepResolvers,
          resolveNpmDependencyFromStep, hc] at h
      · simp [resolveBowerDependencyFrom, resolvers, stepResolvers,
          resolveBowerDependencyFromStep, hc] at h
      · simp [resolveTypeDependencyFrom, resolvers, stepResolvers,
          resolveTypeDependencyFromStep, hc] at h

/-- C3: cycle safety.  First, when the source path about to be read equals
any `src` on the parent chain, each of the three manifest expanders fails
with the circular-dependency error — for every filesystem, so before and
independently of reading the manifest.  Second, a chain every node of
which passed the check against its ancestors has pairwise-distinct
entries, which is the claimed invariant of resolved trees (every node is
created with `some src :: chain` only after the check accepts `src`, as
the third part states). -/
theorem claim_C3_circular_check :
    (∀ (fs : FS) (r : Resolvers) (src cp : String) (options : Options) (chain : Chain),
      some src ∈ chain →
        resolveNpmDependencyFromStep fs r src options (some chain) =
          .error (.circular (headSrc (some chain))) ∧
        resolveBowerDependencyFromStep fs r src cp options (some chain) =
          .error (.circular (headSrc (some chain))) ∧
        resolveTypeDependencyFromStep fs r src options (some chain) =
          .error (.circular (headSrc (some chain)))) ∧
    (∀ (fs : FS) (fuel : Nat) (src cp : String) (options : Options)
        (chain : Chain) (t : DependencyTree),
      (resolveNpmDependencyFrom fs (fuel + 1) src options (some chain) = .ok t ∨
        resolveBowerDependencyFrom fs (fuel + 1) src cp options (some chain) = .ok t ∨
        resolveTypeDependencyFrom fs (fuel + 1) src options (some chain) = .ok t) →
      resolvedChainOk chain = true → resolvedChainOk (some src :: chain) = true) ∧
    (∀ chain : Chain, resolvedChainOk chain = true → chain.Nodup) := by
  refine ⟨?_, ?_, ?_⟩
  · intro fs r src cp options chain hmem
    have hc : checkCircularDependency (some chain) src = false := by
      cases hc : checkCircularDependency (some chain) src with
      | true => exact absurd hmem ((checkCircularDependency_eq_true_iff chain src).mp hc)
      | false => rfl
    refine ⟨?_, ?_, ?_⟩
    · simp [resolveNpmDependencyFromStep, hc]
    · simp [resolveBowerDependencyFromStep, hc]
    · simp [resolveTypeDependencyFromStep, hc]
  · intro fs fuel src cp options chain t h hchain
    have hc := from_ok_check fs fuel src cp options chain t h
    simp [resolvedChainOk, hc, hchain]
  · intro chain
    induction chain with
    | nil => intro _; exact List.nodup_nil
    | cons x xs ih =>
        intro h
        cases x with
        | none => simp [resolvedChainOk] at h
        | some s =>
            simp only [resolvedChainOk, Bool.and_eq_true] at h
            exact List.nodup_cons.mpr
              ⟨(checkCircularDependency_eq_true_iff xs s).mp h.1, ih h.2⟩

/-- C3 witness: at a concrete chain already containing the source path,
the npm expander fails with the circular error, and a concretely checked
chain is duplicate-free. -/
theorem claim_C3_circular_check_witness :
    ((some srcOne : Option String) ∈ ([some srcOne] : Chain)) ∧
    resolveNpmDependencyFromStep emptyFS noFuelResolvers srcOne dotOpts
      (some [some srcOne]) = .error (.circular (some srcOne)) ∧
    resolvedChainOk [some srcOne, some srcTwo] = true ∧
    List.Nodup ([some srcOne, some srcTwo] : Chain) := by
  refine ⟨by decide, ?_, by decide, ?_⟩
  · exact ((claim_C3_circular_check).1 emptyFS noFuelResolvers srcOne srcOne dotOpts
      [some srcOne] (by decide)).1
  · exact (claim_C3_circular_check).2.2 [some srcOne, some srcTwo] (by decide)

/-! ### C5: ordered candidate lists in the native dependency map -/

/-- A non-missing accumulator short-circuits the candidate fold: the
remaining candidates are never resolved. -/
theorem tryCandidatesGo_not_missing (r : Resolvers) (options : Options) (cwd : String)
    (parent : Chain) (cs : List String) :
    ∀ acc : DependencyTree, acc.missing = false →
      tryCandidatesGo r options cwd parent acc cs = .ok acc := by
  induction cs with
  | nil => intro acc _; rfl
  | cons c rest ih =>
      intro acc h
      simp only [tryCandidatesGo, h]
      exact ih acc h

/-- The candidate fold, started from a missing accumulator, returns either
a still-missing node with every candidate resolving missing, or the result
of the first candidate that resolves non-missing, every earlier candidate
having resolved missing. -/
theorem tryCandidatesGo_first_success (r : Resolvers) (options : Options) (cwd : String)
    (parent : Chain) :
    ∀ (cs : List String) (acc t : DependencyTree), acc.missing = true →
      tryCandidatesGo r options cwd parent acc cs = .ok t →
      (t.missing = true ∧ ∀ c ∈ cs, ∀ u,
          r.depResolve (parseDependency c) (forcedResolveOptions options cwd)
            (some parent) = .ok u → u.missing = true) ∨
      (∃ i, ∃ hi : i < cs.length, t.missing = false ∧
        r.depResolve (parseDependency (cs.get ⟨i, hi⟩)) (forcedResolveOptions options cwd)
          (some parent) = .ok t ∧
        ∀ j (hj : j < i), ∃ u,
          r.depResolve (parseDependency (cs.get ⟨j, hj.trans hi⟩))
            (forcedResolveOptions options cwd) (some parent) = .ok u ∧
            u.missing = true) := by
  intro cs
  induction cs with
  | nil =>
      intro acc t hacc h
      simp only [tryCandidatesGo, Except.ok.injEq] at h
      left
      rw [← h]
      exact ⟨hacc, by intro c hc; simp at hc⟩
  | cons c rest ih =>
      intro acc t hacc h
      simp only [tryCandidatesGo, hacc, if_true] at h
      split at h
      · simp at h
      · rename_i tree hres
        cases htm : tree.missing with
        | false =>
            rw [tryCandidatesGo_not_missing r options cwd parent rest tree htm] at h
            simp only [Except.ok.injEq] at h
            right
            refine ⟨0, by simp, ?_, ?_, ?_⟩
            · rw [← h]; exact htm
            · rw [← h]; exact hres
            · intro j hj; omega
        | true =>
            rcases ih tree t htm h with ⟨htmiss, hall⟩ | ⟨i, hi, hmiss, hok, hearlier⟩
            · left
              refine ⟨htmiss, ?_⟩
              intro c2 hc2 u hu
              rcases List.mem_cons.mp hc2 with hc2 | hc2
              · rw [hc2] at hu
                have heq : tree = u := by
                  have h2 := hres.symm.trans hu
                  injection h2
                rw [← heq]; exact htm
              · exact hall c2 hc2 u hu
            · right
              refine ⟨i + 1, Nat.succ_lt_succ hi, hmiss, ?_, ?_⟩
              · simpa using hok
              · intro j hj
                cases j with
                | zero => exact ⟨tree, by simpa using hres, htm⟩
                | succ j2 =>
                    rcases hearlier j2 (Nat.lt_of_succ_lt_succ hj) with ⟨u, hu, hum⟩
                    exact ⟨u, by simpa using hu, hum⟩

/-- C5: for a native-config dependency-map entry, the resolver folds the
`arrify`-ed candidate list through `tryCandidatesGo` (first part), and
that fold tries the candidates strictly in order, returning the tree of
the first candidate resolving non-missing, or a missing node when every
candidate resolves missing or the list is empty (second part). -/
theorem claim_C5_first_non_missing :
    (∀ (fs : FS) (fuel : Nat) (src name : String) (value : DepValue)
        (rest : List (String × DepValue)) (options : Options) (chain : Chain)
        (m : List (String × DependencyTree)),
      resolveTypeDependencyMap fs (fuel + 1) src ((name, value) :: rest) options chain = .ok m →
      ∃ t m2, m = (name, t) :: m2 ∧
        tryCandidates fs fuel options (dirname src) chain MISSING_DEPENDENCY
          (arrify value) = .ok t) ∧
    (∀ (r : Resolvers) (options : Options) (cwd : String) (parent : Chain)
        (cs : List String) (t : DependencyTree),
      tryCandidatesGo r options cwd parent MISSING_DEPENDENCY cs = .ok t →
      (t.missing = true ∧ ∀ c ∈ cs, ∀ u,
          r.depResolve (parseDependency c) (forcedResolveOptions options cwd)
            (some parent) = .ok u → u.missing = true) ∨
      (∃ i, ∃ hi : i < cs.length, t.missing = false ∧
        r.depResolve (parseDependency (cs.get ⟨i, hi⟩)) (forcedResolveOptions options cwd)
          (some parent) = .ok t ∧
        ∀ j (hj : j < i), ∃ u,
          r.depResolve (parseDependency (cs.get ⟨j, hj.trans hi⟩))
            (forcedResolveOptions options cwd) (some parent) = .ok u ∧
            u.missing = true)) := by
  constructor
  · intro fs fuel src name value rest options chain m h
    simp only [resolveTypeDependencyMap, resolvers, stepResolvers,
      resolveTypeDependencyMapGo] at h
    split at h
    · simp at h
    · rename_i tree htree
      split at h
      · simp at h
      · rename_i restMap hrest
        simp only [Except.ok.injEq] at h
        exact ⟨tree, restMap, h.symm, htree⟩
  · intro r options cwd parent cs t h
    exact tryCandidatesGo_first_success r options cwd parent cs MISSING_DEPENDENCY t rfl h

/-- Working directory for the C5 witness. -/
def c5Cwd : String := "proj"

/-- First candidate of the C5 witness (resolves missing). -/
def c5CandX : String := "x"

/-- Second candidate of the C5 witness (resolves non-missing). -/
def c5CandY : String := "y"

/-- Filesystem for the C5 witness: only the second candidate's config
exists. -/
def c5FS : FS :=
  { read := fun p => if p = pathResolve c5Cwd c5CandY then some {} else none
    findUp := fun _ _ => none
    findConfigFile := fun _ => none }

/-- The node the C5 witness resolves to: the native config of the second
candidate. -/
def c5Node : DependencyTree :=
  .mk { type := some PROJECT_NAME, src := some (pathResolve c5Cwd c5CandY),
        parent := some [some srcOne] }

/-- C5 witness: with the first candidate missing and the second present,
the candidate fold returns the second candidate's tree, and the theorem
applies to show that result is non-missing. -/
theorem claim_C5_first_non_missing_witness :
    tryCandidatesGo (resolvers c5FS 4) dotOpts c5Cwd [some srcOne] MISSING_DEPENDENCY
      [c5CandX, c5CandY] = .ok c5Node ∧ c5Node.missing = false := by
  constructor
  · rfl
  · have h := claim_C5_first_non_missing.2 (resolvers c5FS 4) dotOpts c5Cwd [some srcOne]
      [c5CandX, c5CandY] c5Node (by rfl)
    rcases h with ⟨hm, _⟩ | ⟨_, _, hm, _, _⟩
    · exact absurd hm (by decide)
    · exact hm

/-! ### C4: behaviour of the three ecosystem readers on missing manifests -/

/-- C4 counterexample: when the native config file is not found, the
native reader returns `extend(MISSING_DEPENDENCY)` — a missing node whose
`type` is left undefined rather than set to the project name, contrary to
the claim that each reader tags its missing node with its own ecosystem
tag. -/
theorem claim_C4_counterexample :
    resolveTypeDependencies emptyFS 1 dotOpts = .ok MISSING_DEPENDENCY ∧
    MISSING_DEPENDENCY.missing = true ∧
    MISSING_DEPENDENCY.type = none ∧
    (none : Option String) ≠ some PROJECT_NAME :=
  ⟨rfl, rfl, rfl, by decide⟩

/-- C4 (amended): on a failed search or a failed read, the npm and bower
readers return a missing node of their ecosystem tag, and the native
reader returns a missing node tagged with the project name when the config
file was found but could not be read, and an untagged missing node when no
config file was found; in every case all four dependency maps are empty
and no failure is propagated. -/
theorem claim_C4_missing_manifest_nodes :
    (∀ (fs : FS) (fuel : Nat) (options : Options),
      fs.findUp options.cwd packageJsonFile = none →
        resolveNpmDependencies fs fuel options =
          .ok (.mk { missing := true, type := some npmTag })) ∧
    (∀ (fs : FS) (fuel : Nat) (options : Options) (p : String),
      fs.findUp options.cwd packageJsonFile = some p → fs.read p = none →
        resolveNpmDependencies fs (fuel + 1) options =
          .ok (.mk { missing := true, type := some npmTag, src := some p })) ∧
    (∀ (fs : FS) (fuel : Nat) (options : Options),
      fs.findUp options.cwd bowerJsonFile = none →
        resolveBowerDependencies fs fuel options =
          .ok (.mk { missing := true, type := some bowerTag })) ∧
    (∀ (fs : FS) (fuel : Nat) (options : Options) (p : String),
      fs.findUp options.cwd bowerJsonFile = some p → fs.read p = none →
        resolveBowerDependencies fs (fuel + 1) options =
          .ok (.mk { missing := true, type := some bowerTag, src := some p })) ∧
    (∀ (fs : FS) (fuel : Nat) (options : Options),
      fs.findConfigFile options.cwd = none →
        resolveTypeDependencies fs fuel options = .ok MISSING_DEPENDENCY) ∧
    (∀ (fs : FS) (fuel : Nat) (options : Options) (p : String),
      fs.findConfigFile options.cwd = some p → fs.read p = none →
        resolveTypeDependencies fs (fuel + 1) options =
          .ok (.mk { missing := true, type := some PROJECT_NAME, src := some p })) ∧
    (MISSING_DEPENDENCY.dependencies = [] ∧ MISSING_DEPENDENCY.devDependencies = [] ∧
      MISSING_DEPENDENCY.ambientDependencies = [] ∧
      MISSING_DEPENDENCY.ambientDevDependencies = []) := by
  refine ⟨?_, ?_, ?_, ?_, ?_, ?_, rfl, rfl, rfl, rfl⟩
  · intro fs fuel options h
    simp [resolveNpmDependencies, h]
  · intro fs fuel options p hfind hread
    simp [resolveNpmDependencies, hfind, resolveNpmDependencyFrom, resolvers,
      stepResolvers, resolveNpmDependencyFromStep, checkCircularDependency, hread]
  · intro fs fuel options h
    simp [resolveBowerDependencies, h]
  · intro fs fuel options p hfind hread
    simp [resolveBowerDependencies, hfind, resolveBowerDependencyFrom, resolvers,
      stepResolvers, resolveBowerDependencyFromStep, checkCircularDependency, hread]
  · intro fs fuel options h
    simp [resolveTypeDependencies, h]
  · intro fs fuel options p hfind hread
    simp [resolveTypeDependencies, hfind, resolveTypeDependencyFrom, resolvers,
      stepResolvers, resolveTypeDependencyFromStep, checkCircularDependency, hread]

/-- Filesystem for the C4 witness: `package.json` is found upward but its
read fails. -/
def c4FS : FS :=
  { read := fun _ => none
    findUp := fun _ f => if f = packageJsonFile then some srcTwo else none
    findConfigFile := fun _ => none }

/-- C4 witness: the amended theorem applies to a filesystem where the npm
manifest is found but unreadable, producing the tagged missing node. -/
theorem claim_C4_missing_manifest_nodes_witness :
    resolveNpmDependencies c4FS 1 dotOpts =
      .ok (.mk { missing := true, type := some npmTag, src := some srcTwo }) :=
  claim_C4_missing_manifest_nodes.2.1 c4FS 0 dotOpts srcTwo rfl rfl

/-! ### C9: the npm `main` default -/

/-- Modelled from the spec (§4.F; the entry resolver lives in
`src/lib/compile.ts`, which is not among the provided sources): the entry
resolution of a node fails with `EntryResolution` exactly when the node
defines no `main`, no `typings`, no `browserTypings` and no string
`browser`. -/
def entryResolutionFails (t : DependencyTree) : Bool :=
  t.main.isNone && t.typings.isNone && t.browserTypings.isNone &&
    !(isStringBrowser t.browser)

/-- C9: a successfully read npm manifest always yields a node whose `main`
is defined — the manifest's `main` when truthy, `index.js` otherwise — so
the node can never reach the no-entry failure branch of entry
resolution. -/
theorem claim_C9_npm_main_default (fs : FS) (fuel : Nat) (src : String)
    (options : Options) (parent : Option Chain) (t : DependencyTree) (pkg : Manifest)
    (hread : fs.read src = some pkg)
    (h : resolveNpmDependencyFrom fs (fuel + 1) src options parent = .ok t) :
    t.main = some (jsOrS pkg.main indexJsFile) ∧ t.main.isSome = true ∧
      entryResolutionFails t = false := by
  simp only [resolveNpmDependencyFrom, resolvers, stepResolvers,
    resolveNpmDependencyFromStep, expandNpmManifest] at h
  split at h
  · simp at h
  · split at h
    · rename_i packageJson hpkg
      have hpe : pkg = packageJson := by
        have h0 := hread.symm.trans hpkg
        injection h0
      subst hpe
      split at h
      · simp at h
      · split at h
        · simp at h
        · split at h
          · simp at h
          · simp only [Except.ok.injEq] at h
            rw [← h]
            exact ⟨rfl, rfl, rfl⟩
    · rename_i hnone
      rw [hread] at hnone
      simp at hnone

/-- Manifest for the C9 witness: no `main` field. -/
def c9Pkg : Manifest := { name := some nameTwo }

/-- Filesystem for the C9 witness: one `package.json` without `main`. -/
def c9FS : FS :=
  { read := fun p => if p = srcTwo then some c9Pkg else none
    findUp := fun _ _ => none
    findConfigFile := fun _ => none }

/-- The node the C9 witness resolves: `main` defaults to `index.js`. -/
def c9Node : DependencyTree :=
  .mk { name := some nameTwo, main := some indexJsFile, type := some npmTag,
        src := some srcTwo }

/-- C9 witness: resolving the witness manifest succeeds and the theorem
gives the defaulted `main` and a passing entry resolution. -/
theorem claim_C9_npm_main_default_witness :
    c9FS.read srcTwo = some c9Pkg ∧
    resolveNpmDependencyFrom c9FS 2 srcTwo dotOpts none = .ok c9Node ∧
    c9Node.main = some (jsOrS c9Pkg.main indexJsFile) ∧ c9Node.main.isSome = true ∧
    entryResolutionFails c9Node = false := by
  refine ⟨rfl, rfl, ?_⟩
  exact claim_C9_npm_main_default c9FS 1 srcTwo dotOpts none c9Node c9Pkg rfl rfl

/-! ### C7: the native-config overlay over npm and bower manifests -/

/-- Extending a map with an empty overlay is the identity. -/
theorem extendMap_nil {α : Type} (m : List (String × α)) : extendMap m [] = m := rfl

/-- A native-config read that fails produces a node with all four maps
empty (the tagged missing node). -/
theorem typeFrom_read_none (fs : FS) (fuel : Nat) (src : String) (options : Options)
    (parent : Option Chain) (typed : DependencyTree)
    (hnone : fs.read src = none)
    (h : resolveTypeDependencyFrom fs fuel src options parent = .ok typed) :
    typed.dependencies = [] ∧ typed.devDependencies = [] ∧
      typed.ambientDependencies = [] ∧ typed.ambientDevDependencies = [] := by
  cases fuel with
  | zero => simp [resolveTypeDependencyFrom, resolvers, noFuelResolvers] at h
  | succ fuel =>
      simp only [resolveTypeDependencyFrom, resolvers, stepResolvers,
        resolveTypeDependencyFromStep, expandTypeManifest] at h
      split at h
      · simp at h
      · split at h
        · rename_i config hsome
          rw [hnone] at hsome
          simp at hsome
        · simp only [Except.ok.injEq] at h
          rw [← h]
          exact ⟨rfl, rfl, rfl, rfl⟩

/-- C7: the final `dependencies` (and `devDependencies`) map of a
successfully read npm or bower manifest node is the ecosystem's own
resolved map extended by the sibling `typings.json` overlay's map — the
overlay winning key collisions by `extendMap` — and when the sibling
native config is absent the ecosystem's maps are returned unchanged. -/
theorem claim_C7_native_overlay :
    (∀ (fs : FS) (fuel : Nat) (src : String) (options : Options) (parent : Option Chain)
        (t : DependencyTree) (pkg : Manifest),
      fs.read src = some pkg →
      resolveNpmDependencyFrom fs (fuel + 1) src options parent = .ok t →
      ∃ deps devDeps typed,
        resolveNpmDependencyMap fs fuel src
          (mapKeys (extendMap pkg.dependencies pkg.optionalDependencies)) options
          (childChain src parent) = .ok deps ∧
        resolveNpmDependencyMap fs fuel src
          (mapKeys (if options.dev then pkg.devDependencies else [])) options
          (childChain src parent) = .ok devDeps ∧
        resolveTypeDependencyFrom fs fuel (pathJoin3 src dotdotStr CONFIG_FILE) options
          (some (childChain src parent)) = .ok typed ∧
        t.dependencies = extendMap deps typed.dependencies ∧
        t.devDependencies = extendMap devDeps typed.devDependencies ∧
        (fs.read (pathJoin3 src dotdotStr CONFIG_FILE) = none →
          t.dependencies = deps ∧ t.devDependencies = devDeps)) ∧
    (∀ (fs : FS) (fuel : Nat) (src componentPath : String) (options : Options)
        (parent : Option Chain) (t : DependencyTree) (bower : Manifest),
      fs.read src = some bower →
      resolveBowerDependencyFrom fs (fuel + 1) src componentPath options parent = .ok t →
      ∃ deps devDeps typed,
        resolveBowerDependencyMap fs fuel componentPath
          (mapKeys bower.dependencies) options (childChain src parent) = .ok deps ∧
        resolveBowerDependencyMap fs fuel componentPath
          (mapKeys (if options.dev then bower.devDependencies else [])) options
          (childChain src parent) = .ok devDeps ∧
        resolveTypeDependencyFrom fs fuel (pathJoin3 src dotdotStr CONFIG_FILE) options
          (some (childChain src parent)) = .ok typed ∧
        t.dependencies = extendMap deps typed.dependencies ∧
        t.devDependencies = extendMap devDeps typed.devDependencies ∧
        (fs.read (pathJoin3 src dotdotStr CONFIG_FILE) = none →
          t.dependencies = deps ∧ t.devDependencies = devDeps)) := by
  constructor
  · intro fs fuel src options parent t pkg hread h
    simp only [resolveNpmDependencyFrom, resolvers, stepResolvers,
      resolveNpmDependencyFromStep, expandNpmManifest] at h
    split at h
    · simp at h
    · split at h
      · rename_i packageJson hpkg
        have hpe : pkg = packageJson := by
          have h0 := hread.symm.trans hpkg
          injection h0
        subst hpe
        split at h
        · simp at h
        · rename_i deps hdeps
          split at h
          · simp at h
          · rename_i devDeps hdevDeps
            split at h
            · simp at h
            · rename_i typed htyped
              simp only [Except.ok.injEq] at h
              refine ⟨deps, devDeps, typed, hdeps, hdevDeps, htyped, ?_, ?_, ?_⟩
              · rw [← h]
                rfl
              · rw [← h]
                rfl
              · intro hnone
                have hempty := typeFrom_read_none fs fuel
                  (pathJoin3 src dotdotStr CONFIG_FILE) options
                  (some (childChain src parent)) typed hnone htyped
                rw [← h]
                constructor
                · show extendMap deps typed.dependencies = deps
                  rw [hempty.1]
                  exact extendMap_nil deps
                · show extendMap devDeps typed.devDependencies = devDeps
                  rw [hempty.2.1]
                  exact extendMap_nil devDeps
      · rename_i hnone
        rw [hread] at hnone
        simp at hnone
  · intro fs fuel src componentPath options parent t bower hread h
    simp only [resolveBowerDependencyFrom, resolvers, stepResolvers,
      resolveBowerDependencyFromStep, expandBowerManifest] at h
    split at h
    · simp at h
    · split at h
      · rename_i bowerJson hpkg
        have hpe : bower = bowerJson := by
          have h0 := hread.symm.trans hpkg
          injection h0
        subst hpe
        split at h
        · simp at h
        · rename_i deps hdeps
          split at h
          · simp at h
          · rename_i devDeps hdevDeps
            split at h
            · simp at h
            · rename_i typed htyped
              simp only [Except.ok.injEq] at h
              refine ⟨deps, devDeps, typed, hdeps, hdevDeps, htyped, ?_, ?_, ?_⟩
              · rw [← h]
                rfl
              · rw [← h]
                rfl
              · intro hnone
                have hempty := typeFrom_read_none fs fuel
                  (pathJoin3 src dotdotStr CONFIG_FILE) options
                  (some (childChain src parent)) typed hnone htyped
                rw [← h]
                constructor
                · show extendMap deps typed.dependencies = deps
                  rw [hempty.1]
                  exact extendMap_nil deps
                · show extendMap devDeps typed.devDependencies = devDeps
                  rw [hempty.2.1]
                  exact extendMap_nil devDeps
      · rename_i hnone
        rw [hread] at hnone
        simp at hnone

/-- Manifest for the C7 witness: one npm dependency, no sibling native
config. -/
def c7Pkg : Manifest := { dependencies := [(keyA, .one keyA)] }

/-- Filesystem for the C7 witness. -/
def c7FS : FS :=
  { read := fun p => if p = srcTwo then some c7Pkg else none
    findUp := fun _ _ => none
    findConfigFile := fun _ => none }

/-- The ecosystem's own resolved dependency map in the C7 witness: the one
dependency cannot be located, so it resolves to the untagged missing npm
node. -/
def c7Deps : List (String × DependencyTree) :=
  [(keyA, .mk { missing := true, type := some npmTag })]

/-- The node the C7 witness resolves. -/
def c7Node : DependencyTree :=
  .mk { main := some indexJsFile, type := some npmTag, src := some srcTwo,
        dependencies := c7Deps }

/-- C7 witness: with no sibling config, the resolved node's dependency map
equals the ecosystem's own resolved map, via the theorem's absent-overlay
clause. -/
theorem claim_C7_native_overlay_witness :
    resolveNpmDependencyFrom c7FS 3 srcTwo dotOpts none = .ok c7Node ∧
    c7FS.read (pathJoin3 srcTwo dotdotStr CONFIG_FILE) = none ∧
    c7Node.dependencies = c7Deps := by
  refine ⟨rfl, rfl, ?_⟩
  rcases claim_C7_native_overlay.1 c7FS 2 srcTwo dotOpts none c7Node c7Pkg rfl rfl with
    ⟨deps, devDeps, typed, h1, _, _, _, _, h6⟩
  rcases h6 rfl with ⟨hd, _⟩
  have hc : resolveNpmDependencyMap c7FS 2 srcTwo
      (mapKeys (extendMap c7Pkg.dependencies c7Pkg.optionalDependencies)) dotOpts
      (childChain srcTwo none) = .ok c7Deps := rfl
  have he : c7Deps = deps := by
    have h0 := hc.symm.trans h1
    injection h0
  rw [hd, ← he]

/-! ### C6: dev/ambient isolation of non-root expansion -/

/-- Two manifests that agree on every field except possibly
`devDependencies`. -/
def eqExceptDevDeps (m m2 : Manifest) : Prop :=
  { m with devDependencies := ([] : List (String × DepValue)) } =
    { m2 with devDependencies := ([] : List (String × DepValue)) }

/-- Two filesystems that agree everywhere, except that the manifest at
`rootPath` may differ in its `devDependencies` field (both present or both
absent) — the situation created by removing a `devDependency` entry from
the root manifest. -/
def DevDepsAgree (fs fs2 : FS) (rootPath : String) : Prop :=
  fs.findUp = fs2.findUp ∧ fs.findConfigFile = fs2.findConfigFile ∧
  (∀ p, p ≠ rootPath → fs.read p = fs2.read p) ∧
  ((fs.read rootPath = none ∧ fs2.read rootPath = none) ∨
    (∃ m m2, fs.read rootPath = some m ∧ fs2.read rootPath = some m2 ∧
      eqExceptDevDeps m m2))

/-- Any single read under `DevDepsAgree` either agrees outright or returns
two manifests equal except for `devDependencies`. -/
theorem read_agree (fs fs2 : FS) (rootPath : String) (hA : DevDepsAgree fs fs2 rootPath)
    (p : String) :
    fs.read p = fs2.read p ∨
      ∃ m m2, fs.read p = some m ∧ fs2.read p = some m2 ∧ eqExceptDevDeps m m2 := by
  by_cases hp : p = rootPath
  · subst hp
    rcases hA.2.2.2 with ⟨h1, h2⟩ | ⟨m, m2, h1, h2, hd⟩
    · left; rw [h1, h2]
    · right; exact ⟨m, m2, h1, h2, hd⟩
  · left; exact hA.2.2.1 p hp

/-- The bower components directory is insensitive to the `devDependencies`
of any manifest (including an unguarded `.bowerrc` read at the root
path). -/
theorem bowerComponentPath_agree (fs fs2 : FS) (rootPath : String)
    (hA : DevDepsAgree fs fs2 rootPath) (path : String) :
    resolveBowerComponentPath fs path = resolveBowerComponentPath fs2 path := by
  unfold resolveBowerComponentPath
  rcases read_agree fs fs2 rootPath hA (pathResolve path bowerrcFile) with he | ⟨m, m2, h1, h2, hd⟩
  · rw [he]
  · rw [h1, h2]
    have hd2 : ({ m with devDependencies := ([] : List (String × DepValue)) } : Manifest) =
        { m2 with devDependencies := ([] : List (String × DepValue)) } := hd
    have hdir0 := congrArg Manifest.directory hd2
    have hdir : m.directory = m2.directory := hdir0
    show pathResolve path (jsOrS m.directory bowerComponentsDir) =
      pathResolve path (jsOrS m2.directory bowerComponentsDir)
    rw [hdir]

/-- Expanding two npm manifests that differ only in `devDependencies`
yields the same tree when `dev` is off, given agreeing sub-resolvers. -/
theorem expandNpmManifest_agree (r r2 : Resolvers) (src : String) (o : Options)
    (par : Option Chain) (m m2 : Manifest)
    (hdev : o.dev = false) (hd : eqExceptDevDeps m m2)
    (hmap : ∀ s keys oo pp, r.npmMap s keys oo pp = r2.npmMap s keys oo pp)
    (htypeo : ∀ s pp, r.typeFrom s o pp = r2.typeFrom s o pp) :
    expandNpmManifest r src o par m = expandNpmManifest r2 src o par m2 := by
  obtain ⟨cwd, dev, amb⟩ := o
  simp only [Options.dev] at hdev
  subst hdev
  cases m with
  | mk n v mn b ty bty am d dd ad add od dir =>
    cases m2 with
    | mk n2 v2 mn2 b2 ty2 bty2 am2 d2 dd2 ad2 add2 od2 dir2 =>
      have hd2 : Manifest.mk n v mn b ty bty am d [] ad add od dir =
          Manifest.mk n2 v2 mn2 b2 ty2 bty2 am2 d2 [] ad2 add2 od2 dir2 := hd
      simp only [Manifest.mk.injEq] at hd2
      obtain ⟨e1, e2, e3, e4, e5, e6, e7, e8, _, e9, e10, e11, e12⟩ := hd2
      subst e1; subst e2; subst e3; subst e4; subst e5; subst e6
      subst e7; subst e8; subst e9; subst e10; subst e11; subst e12
      simp only [expandNpmManifest, hmap, htypeo]
      rfl

/-- Expanding two bower manifests that differ only in `devDependencies`
yields the same tree when `dev` is off, given agreeing sub-resolvers. -/
theorem expandBowerManifest_agree (r r2 : Resolvers) (src cp : String) (o : Options)
    (par : Option Chain) (m m2 : Manifest)
    (hdev : o.dev = false) (hd : eqExceptDevDeps m m2)
    (hmap : ∀ c keys oo pp, r.bowerMap c keys oo pp = r2.bowerMap c keys oo pp)
    (htypeo : ∀ s pp, r.typeFrom s o pp = r2.typeFrom s o pp) :
    expandBowerManifest r src cp o par m = expandBowerManifest r2 src cp o par m2 := by
  obtain ⟨cwd, dev, amb⟩ := o
  simp only [Options.dev] at hdev
  subst hdev
  cases m with
  | mk n v mn b ty bty am d dd ad add od dir =>
    cases m2 with
    | mk n2 v2 mn2 b2 ty2 bty2 am2 d2 dd2 ad2 add2 od2 dir2 =>
      have hd2 : Manifest.mk n v mn b ty bty am d [] ad add od dir =
          Manifest.mk n2 v2 mn2 b2 ty2 bty2 am2 d2 [] ad2 add2 od2 dir2 := hd
      simp only [Manifest.mk.injEq] at hd2
      obtain ⟨e1, e2, e3, e4, e5, e6, e7, e8, _, e9, e10, e11, e12⟩ := hd2
      subst e1; subst e2; subst e3; subst e4; subst e5; subst e6
      subst e7; subst e8; subst e9; subst e10; subst e11; subst e12
      simp only [expandBowerManifest, hmap, htypeo]
      rfl

/-- Expanding two native configs that differ only in `devDependencies`
yields the same tree when `dev` is off, given agreeing sub-resolvers. -/
theorem expandTypeManifest_agree (r r2 : Resolvers) (src : String) (o : Options)
    (par : Option Chain) (m m2 : Manifest)
    (hdev : o.dev = false) (hd : eqExceptDevDeps m m2)
    (hmap : ∀ s entries oo pp, r.typeMap s entries oo pp = r2.typeMap s entries oo pp) :
    expandTypeManifest r src o par m = expandTypeManifest r2 src o par m2 := by
  obtain ⟨cwd, dev, amb⟩ := o
  simp only [Options.dev] at hdev
  subst hdev
  cases m with
  | mk n v mn b ty bty am d dd ad add od dir =>
    cases m2 with
    | mk n2 v2 mn2 b2 ty2 bty2 am2 d2 dd2 ad2 add2 od2 dir2 =>
      have hd2 : Manifest.mk n v mn b ty bty am d [] ad add od dir =
          Manifest.mk n2 v2 mn2 b2 ty2 bty2 am2 d2 [] ad2 add2 od2 dir2 := hd
      simp only [Manifest.mk.injEq] at hd2
      obtain ⟨e1, e2, e3, e4, e5, e6, e7, e8, _, e9, e10, e11, e12⟩ := hd2
      subst e1; subst e2; subst e3; subst e4; subst e5; subst e6
      subst e7; subst e8; subst e9; subst e10; subst e11; subst e12
      simp only [expandTypeManifest, hmap]
      rfl

/-- One step of the npm manifest expander is insensitive to the root
manifest's `devDependencies` when `dev` is off. -/
theorem npmFromStep_agree (fs fs2 : FS) (rootPath : String)
    (hA : DevDepsAgree fs fs2 rootPath) (r r2 : Resolvers) (o : Options)
    (hdev : o.dev = false)
    (hmap : ∀ s keys oo pp, r.npmMap s keys oo pp = r2.npmMap s keys oo pp)
    (htypeo : ∀ s pp, r.typeFrom s o pp = r2.typeFrom s o pp)
    (src : String) (par : Option Chain) :
    resolveNpmDependencyFromStep fs r src o par =
      resolveNpmDependencyFromStep fs2 r2 src o par := by
  unfold resolveNpmDependencyFromStep
  by_cases hc : checkCircularDependency par src = false
  · simp only [if_pos hc]
  · simp only [if_neg hc]
    rcases read_agree fs fs2 rootPath hA src with he | ⟨m, m2, h1, h2, hd⟩
    · rw [he]
      cases hfs : fs2.read src with
      | none => rfl
      | some pkg =>
          show expandNpmManifest r src o par pkg = expandNpmManifest r2 src o par pkg
          exact expandNpmManifest_agree r r2 src o par pkg pkg hdev rfl hmap htypeo
    · rw [h1, h2]
      show expandNpmManifest r src o par m = expandNpmManifest r2 src o par m2
      exact expandNpmManifest_agree r r2 src o par m m2 hdev hd hmap htypeo

/-- One step of the bower manifest expander is insensitive to the root
manifest's `devDependencies` when `dev` is off. -/
theorem bowerFromStep_agree (fs fs2 : FS) (rootPath : String)
    (hA : DevDepsAgree fs fs2 rootPath) (r r2 : Resolvers) (o : Options)
    (hdev : o.dev = false)
    (hmap : ∀ c keys oo pp, r.bowerMap c keys oo pp = r2.bowerMap c keys oo pp)
    (htypeo : ∀ s pp, r.typeFrom s o pp = r2.typeFrom s o pp)
    (src cp : String) (par : Option Chain) :
    resolveBowerDependencyFromStep fs r src cp o par =
      resolveBowerDependencyFromStep fs2 r2 src cp o par := by
  unfold resolveBowerDependencyFromStep
  by_cases hc : checkCircularDependency par src = false
  · simp only [if_pos hc]
  · simp only [if_neg hc]
    rcases read_agree fs fs2 rootPath hA src with he | ⟨m, m2, h1, h2, hd⟩
    · rw [he]
      cases hfs : fs2.read src with
      | none => rfl
      | some pkg =>
          show expandBowerManifest r src cp o par pkg = expandBowerManifest r2 src cp o par pkg
          exact expandBowerManifest_agree r r2 src cp o par pkg pkg hdev rfl hmap htypeo
    · rw [h1, h2]
      show expandBowerManifest r src cp o par m = expandBowerManifest r2 src cp o par m2
      exact expandBowerManifest_agree r r2 src cp o par m m2 hdev hd hmap htypeo

/-- One step of the native config expander is insensitive to the root
manifest's `devDependencies` when `dev` is off. -/
theorem typeFromStep_agree (fs fs2 : FS) (rootPath : String)
    (hA : DevDepsAgree fs fs2 rootPath) (r r2 : Resolvers) (o : Options)
    (hdev : o.dev = false)
    (hmap : ∀ s entries oo pp, r.typeMap s entries oo pp = r2.typeMap s entries oo pp)
    (src : String) (par : Option Chain) :
    resolveTypeDependencyFromStep fs r src o par =
      resolveTypeDependencyFromStep fs2 r2 src o par := by
  unfold resolveTypeDependencyFromStep
  by_cases hc : checkCircularDependency par src = false
  · simp only [if_pos hc]
  · simp only [if_neg hc]
    rcases read_agree fs fs2 rootPath hA src with he | ⟨m, m2, h1, h2, hd⟩
    · rw [he]
      cases hfs : fs2.read src with
      | none => rfl
      | some cfg =>
          show expandTypeManifest r src o par cfg = expandTypeManifest r2 src o par cfg
          exact expandTypeManifest_agree r r2 src o par cfg cfg hdev rfl hmap
    · rw [h1, h2]
      show expandTypeManifest r src o par m = expandTypeManifest r2 src o par m2
      exact expandTypeManifest_agree r r2 src o par m m2 hdev hd hmap

/-- The npm dependency-map walker preserves sub-resolver agreement (its
children are always resolved with forced `dev := false`). -/
theorem npmMapGo_agree (r r2 : Resolvers)
    (hdep : ∀ name oo pp, oo.dev = false → r.npmDep name oo pp = r2.npmDep name oo pp)
    (src : String) :
    ∀ (keys : List String) (o : Options) (par : Chain),
      resolveNpmDependencyMapGo r src keys o par =
        resolveNpmDependencyMapGo r2 src keys o par := by
  intro keys
  induction keys with
  | nil => intro o par; rfl
  | cons name rest ih =>
      intro o par
      simp only [resolveNpmDependencyMapGo]
      rw [hdep (pathJoin name packageJsonFile) (forcedResolveOptions o (dirname src))
        (some par) rfl]
      cases hx : r2.npmDep (pathJoin name packageJsonFile)
          (forcedResolveOptions o (dirname src)) (some par) with
      | error e => rfl
      | ok tree =>
          rw [ih o par]

/-- The bower dependency-map walker preserves sub-resolver agreement. -/
theorem bowerMapGo_agree (r r2 : Resolvers)
    (hfrom : ∀ s c oo pp, oo.dev = false → r.bowerFrom s c oo pp = r2.bowerFrom s c oo pp)
    (componentPath : String) :
    ∀ (keys : List String) (o : Options) (par : Chain),
      resolveBowerDependencyMapGo r componentPath keys o par =
        resolveBowerDependencyMapGo r2 componentPath keys o par := by
  intro keys
  induction keys with
  | nil => intro o par; rfl
  | cons name rest ih =>
      intro o par
      simp only [resolveBowerDependencyMapGo]
      rw [hfrom (pathResolve3 componentPath name bowerJsonFile) componentPath
        (forcedFlagsOptions o) (some par) rfl]
      cases hx : r2.bowerFrom (pathResolve3 componentPath name bowerJsonFile) componentPath
          (forcedFlagsOptions o) (some par) with
      | error e => rfl
      | ok tree =>
          rw [ih o par]

/-- The candidate fold preserves sub-resolver agreement (its candidates
are always resolved with forced `dev := false`). -/
theorem tryCandidatesGo_agree (r r2 : Resolvers)
    (hdep : ∀ dep oo pp, oo.dev = false → r.depResolve dep oo pp = r2.depResolve dep oo pp) :
    ∀ (cs : List String) (o : Options) (cwd : String) (par : Chain) (acc : DependencyTree),
      tryCandidatesGo r o cwd par acc cs = tryCandidatesGo r2 o cwd par acc cs := by
  intro cs
  induction cs with
  | nil => intro o cwd par acc; rfl
  | cons c rest ih =>
      intro o cwd par acc
      cases hm : acc.missing with
      | false => simp only [tryCandidatesGo, hm, Bool.false_eq_true, if_false]; exact ih o cwd par acc
      | true =>
          simp only [tryCandidatesGo, hm, if_true]
          rw [hdep (parseDependency c) (forcedResolveOptions o cwd) (some par) rfl]
          cases hx : r2.depResolve (parseDependency c) (forcedResolveOptions o cwd) (some par) with
          | error e => rfl
          | ok tree =>
              show tryCandidatesGo r o cwd par tree rest = tryCandidatesGo r2 o cwd par tree rest
              exact ih o cwd par tree

/-- The native dependency-map walker preserves candidate-fold agreement. -/
theorem typeMapGo_agree (r r2 : Resolvers)
    (htry : ∀ oo cwd pp acc cs, r.tryCands oo cwd pp acc cs = r2.tryCands oo cwd pp acc cs)
    (src : String) :
    ∀ (entries : List (String × DepValue)) (o : Options) (par : Chain),
      resolveTypeDependencyMapGo r src entries o par =
        resolveTypeDependencyMapGo r2 src entries o par := by
  intro entries
  induction entries with
  | nil => intro o par; rfl
  | cons e rest ih =>
      intro o par
      cases e with
      | mk name value =>
          simp only [resolveTypeDependencyMapGo]
          rw [htry o (dirname src) par MISSING_DEPENDENCY (arrify value)]
          cases hx : r2.tryCands o (dirname src) par MISSING_DEPENDENCY (arrify value) with
          | error e2 => rfl
          | ok tree =>
              rw [ih o par]

/-- The file-dependency resolver preserves sub-resolver agreement. -/
theorem fileDepStep_agree (r r2 : Resolvers) (o : Options)
    (htypeo : ∀ s pp, r.typeFrom s o pp = r2.typeFrom s o pp)
    (location : String) (par : Option Chain) :
    resolveFileDependencyStep r location o par = resolveFileDependencyStep r2 location o par := by
  unfold resolveFileDependencyStep
  exact if_congr Iff.rfl (htypeo _ _) rfl

/-- The npm locator preserves filesystem and sub-resolver agreement. -/
theorem npmDepStep_agree (fs fs2 : FS) (rootPath : String)
    (hA : DevDepsAgree fs fs2 rootPath) (r r2 : Resolvers) (o : Options)
    (hfileo : ∀ loc pp, r.fileDep loc o pp = r2.fileDep loc o pp)
    (hfromo : ∀ s pp, r.npmFrom s o pp = r2.npmFrom s o pp)
    (name : String) (par : Option Chain) :
    resolveNpmDependencyStep fs r name o par = resolveNpmDependencyStep fs2 r2 name o par := by
  unfold resolveNpmDependencyStep
  rw [hA.1]
  cases hfind : fs2.findUp o.cwd (pathJoin nodeModulesDir name) with
  | none => rfl
  | some modulePath =>
      show (if isDefinition modulePath then r.fileDep modulePath o par
        else r.npmFrom modulePath o par) =
        (if isDefinition modulePath then r2.fileDep modulePath o par
        else r2.npmFrom modulePath o par)
      exact if_congr Iff.rfl (hfileo modulePath par) (hfromo modulePath par)

/-- The bower locator preserves filesystem and sub-resolver agreement. -/
theorem bowerDepStep_agree (fs fs2 : FS) (rootPath : String)
    (hA : DevDepsAgree fs fs2 rootPath) (r r2 : Resolvers) (o : Options)
    (hfileo : ∀ loc pp, r.fileDep loc o pp = r2.fileDep loc o pp)
    (hfromo : ∀ s c pp, r.bowerFrom s c o pp = r2.bowerFrom s c o pp)
    (name : String) (par : Option Chain) :
    resolveBowerDependencyStep fs r name o par = resolveBowerDependencyStep fs2 r2 name o par := by
  unfold resolveBowerDependencyStep
  rw [bowerComponentPath_agree fs fs2 rootPath hA o.cwd]
  exact if_congr Iff.rfl (hfileo _ _) (hfromo _ _ _)

/-- The dependency dispatcher preserves sub-resolver agreement. -/
theorem depResolveStep_agree (r r2 : Resolvers) (o : Options)
    (hnpm : ∀ name pp, r.npmDep name o pp = r2.npmDep name o pp)
    (hbower : ∀ name pp, r.bowerDep name o pp = r2.bowerDep name o pp)
    (hfile : ∀ loc pp, r.fileDep loc o pp = r2.fileDep loc o pp)
    (dep : Dependency) (par : Option Chain) :
    resolveDependencyStep r dep o par = resolveDependencyStep r2 dep o par := by
  unfold resolveDependencyStep
  exact if_congr Iff.rfl (hnpm _ _) (if_congr Iff.rfl (hbower _ _) (hfile _ _))

/-- Agreement of two resolver records: every manifest expansion and
dependency lookup with `dev` off coincides, and every map walker
coincides unconditionally. -/
def ResolversAgree (r r2 : Resolvers) : Prop :=
  (∀ src o par, o.dev = false → r.npmFrom src o par = r2.npmFrom src o par) ∧
  (∀ src cp o par, o.dev = false → r.bowerFrom src cp o par = r2.bowerFrom src cp o par) ∧
  (∀ src o par, o.dev = false → r.typeFrom src o par = r2.typeFrom src o par) ∧
  (∀ src keys o par, r.npmMap src keys o par = r2.npmMap src keys o par) ∧
  (∀ cp keys o par, r.bowerMap cp keys o par = r2.bowerMap cp keys o par) ∧
  (∀ src entries o par, r.typeMap src entries o par = r2.typeMap src entries o par) ∧
  (∀ o cwd par acc cs, r.tryCands o cwd par acc cs = r2.tryCands o cwd par acc cs) ∧
  (∀ dep o par, o.dev = false → r.depResolve dep o par = r2.depResolve dep o par) ∧
  (∀ name o par, o.dev = false → r.npmDep name o par = r2.npmDep name o par) ∧
  (∀ name o par, o.dev = false → r.bowerDep name o par = r2.bowerDep name o par) ∧
  (∀ loc o par, o.dev = false → r.fileDep loc o par = r2.fileDep loc o par)

/-- Resolvers over two filesystems differing only in the root manifest's
`devDependencies` agree at every fuel. -/
theorem resolversAgree_all (fs fs2 : FS) (rootPath : String)
    (hA : DevDepsAgree fs fs2 rootPath) :
    ∀ fuel, ResolversAgree (resolvers fs fuel) (resolvers fs2 fuel) := by
  intro fuel
  induction fuel with
  | zero =>
      refine ⟨?_, ?_, ?_, ?_, ?_, ?_, ?_, ?_, ?_, ?_, ?_⟩ <;> intros <;> rfl
  | succ fuel ih =>
      obtain ⟨ihNpmFrom, ihBowerFrom, ihTypeFrom, ihNpmMap, ihBowerMap, ihTypeMap,
        ihTry, ihDep, ihNpmDep, ihBowerDep, ihFileDep⟩ := ih
      refine ⟨?_, ?_, ?_, ?_, ?_, ?_, ?_, ?_, ?_, ?_, ?_⟩
      · intro src o par hdev
        exact npmFromStep_agree fs fs2 rootPath hA (resolvers fs fuel) (resolvers fs2 fuel)
          o hdev ihNpmMap (fun s pp => ihTypeFrom s o pp hdev) src par
      · intro src cp o par hdev
        exact bowerFromStep_agree fs fs2 rootPath hA (resolvers fs fuel) (resolvers fs2 fuel)
          o hdev ihBowerMap (fun s pp => ihTypeFrom s o pp hdev) src cp par
      · intro src o par hdev
        exact typeFromStep_agree fs fs2 rootPath hA (resolvers fs fuel) (resolvers fs2 fuel)
          o hdev ihTypeMap src par
      · intro src keys o par
        exact npmMapGo_agree (resolvers fs fuel) (resolvers fs2 fuel)
          (fun name oo pp hd => ihNpmDep name oo pp hd) src keys o par
      · intro cp keys o par
        exact bowerMapGo_agree (resolvers fs fuel) (resolvers fs2 fuel)
          (fun s c oo pp hd => ihBowerFrom s c oo pp hd) cp keys o par
      · intro src entries o par
        exact typeMapGo_agree (resolvers fs fuel) (resolvers fs2 fuel) ihTry src entries o par
      · intro o cwd par acc cs
        exact tryCandidatesGo_agree (resolvers fs fuel) (resolvers fs2 fuel)
          (fun dep oo pp hd => ihDep dep oo pp hd) cs o cwd par acc
      · intro dep o par hdev
        exact depResolveStep_agree (resolvers fs fuel) (resolvers fs2 fuel) o
          (fun name pp => ihNpmDep name o pp hdev)
          (fun name pp => ihBowerDep name o pp hdev)
          (fun loc pp => ihFileDep loc o pp hdev) dep par
      · intro name o par hdev
        exact npmDepStep_agree fs fs2 rootPath hA (resolvers fs fuel) (resolvers fs2 fuel) o
          (fun loc pp => ihFileDep loc o pp hdev)
          (fun s pp => ihNpmFrom s o pp hdev) name par
      · intro name o par hdev
        exact bowerDepStep_agree fs fs2 rootPath hA (resolvers fs fuel) (resolvers fs2 fuel) o
          (fun loc pp => ihFileDep loc o pp hdev)
          (fun s c pp => ihBowerFrom s c o pp hdev) name par
      · intro loc o par hdev
        exact fileDepStep_agree (resolvers fs fuel) (resolvers fs2 fuel) o
          (fun s pp => ihTypeFrom s o pp hdev) loc par

/-- The forced child options are independent of the caller's options. -/
theorem forcedResolveOptions_congr (o o2 : Options) (cwd : String) :
    forcedResolveOptions o cwd = forcedResolveOptions o2 cwd := by
  cases o; cases o2; rfl

/-- The forced bower child options depend only on the caller's `cwd`. -/
theorem forcedFlagsOptions_congr (o o2 : Options) (h : o.cwd = o2.cwd) :
    forcedFlagsOptions o = forcedFlagsOptions o2 := by
  cases o; cases o2
  simp only [Options.cwd] at h
  subst h
  rfl

/-- The npm dependency-map walker ignores the caller's options entirely
(`dev`, `ambient` and `cwd` are all forced for its children). -/
theorem npmMapGo_options (r : Resolvers) (src : String) :
    ∀ (keys : List String) (o o2 : Options) (par : Chain),
      resolveNpmDependencyMapGo r src keys o par =
        resolveNpmDependencyMapGo r src keys o2 par := by
  intro keys
  induction keys with
  | nil => intro o o2 par; rfl
  | cons name rest ih =>
      intro o o2 par
      simp only [resolveNpmDependencyMapGo]
      rw [forcedResolveOptions_congr o o2 (dirname src)]
      cases hx : r.npmDep (pathJoin name packageJsonFile)
          (forcedResolveOptions o2 (dirname src)) (some par) with
      | error e => rfl
      | ok tree =>
          rw [ih o o2 par]

/-- The bower dependency-map walker ignores the caller's `dev` and
`ambient` flags (only `cwd` can matter, and it is fixed here). -/
theorem bowerMapGo_options (r : Resolvers) (componentPath : String) :
    ∀ (keys : List String) (o o2 : Options) (par : Chain), o.cwd = o2.cwd →
      resolveBowerDependencyMapGo r componentPath keys o par =
        resolveBowerDependencyMapGo r componentPath keys o2 par := by
  intro keys
  induction keys with
  | nil => intro o o2 par _; rfl
  | cons name rest ih =>
      intro o o2 par hcwd
      simp only [resolveBowerDependencyMapGo]
      rw [forcedFlagsOptions_congr o o2 hcwd]
      cases hx : r.bowerFrom (pathResolve3 componentPath name bowerJsonFile) componentPath
          (forcedFlagsOptions o2) (some par) with
      | error e => rfl
      | ok tree =>
          rw [ih o o2 par hcwd]

/-- The candidate fold ignores the caller's options (`dev`, `ambient` and
`cwd` are all forced for each candidate). -/
theorem tryCandidatesGo_options (r : Resolvers) :
    ∀ (cs : List String) (o o2 : Options) (cwd : String) (par : Chain)
      (acc : DependencyTree),
      tryCandidatesGo r o cwd par acc cs = tryCandidatesGo r o2 cwd par acc cs := by
  intro cs
  induction cs with
  | nil => intro o o2 cwd par acc; rfl
  | cons c rest ih =>
      intro o o2 cwd par acc
      cases hm : acc.missing with
      | false =>
          simp only [tryCandidatesGo, hm, Bool.false_eq_true, if_false]
          exact ih o o2 cwd par acc
      | true =>
          simp only [tryCandidatesGo, hm, if_true]
          rw [forcedResolveOptions_congr o o2 cwd]
          cases hx : r.depResolve (parseDependency c) (forcedResolveOptions o2 cwd)
              (some par) with
          | error e => rfl
          | ok tree =>
              show tryCandidatesGo r o cwd par tree rest = tryCandidatesGo r o2 cwd par tree rest
              exact ih o o2 cwd par tree

/-- The candidate fold at any fuel ignores the caller's options. -/
theorem tryCandidates_options (fs : FS) (fuel : Nat) (o o2 : Options) (cwd : String)
    (par : Chain) (acc : DependencyTree) (cs : List String) :
    tryCandidates fs fuel o cwd par acc cs = tryCandidates fs fuel o2 cwd par acc cs := by
  cases fuel with
  | zero => rfl
  | succ fuel => exact tryCandidatesGo_options (resolvers fs fuel) cs o o2 cwd par acc

/-- The native dependency-map walker ignores the caller's options, given
a candidate fold that does. -/
theorem typeMapGo_options (r : Resolvers) (src : String)
    (htry : ∀ (o o2 : Options) cwd par acc cs,
      r.tryCands o cwd par acc cs = r.tryCands o2 cwd par acc cs) :
    ∀ (entries : List (String × DepValue)) (o o2 : Options) (par : Chain),
      resolveTypeDependencyMapGo r src entries o par =
        resolveTypeDependencyMapGo r src entries o2 par := by
  intro entries
  induction entries with
  | nil => intro o o2 par; rfl
  | cons e rest ih =>
      intro o o2 par
      cases e with
      | mk name value =>
          simp only [resolveTypeDependencyMapGo]
          rw [htry o o2 (dirname src) par MISSING_DEPENDENCY (arrify value)]
          cases hx : r.tryCands o2 (dirname src) par MISSING_DEPENDENCY (arrify value) with
          | error e2 => rfl
          | ok tree =>
              rw [ih o o2 par]

/-- C6: non-root expansion is isolated from the caller's `dev`/`ambient`
flags.  The forced child options always have `dev` and `ambient` off; the
npm and native map walkers (and the candidate fold) are independent of the
caller's options, the bower map walker of its `dev`/`ambient` flags; and
with `dev` off, changing (for example removing an entry of) the root
manifest's `devDependencies` cannot change the result of
`resolveDependencies`. -/
theorem claim_C6_dev_ambient_isolation :
    (∀ (o : Options) (cwd : String),
      (forcedResolveOptions o cwd).dev = false ∧
      (forcedResolveOptions o cwd).ambient = false ∧
      (forcedFlagsOptions o).dev = false ∧ (forcedFlagsOptions o).ambient = false) ∧
    (∀ (fs : FS) (fuel : Nat) (src : String) (keys : List String) (o o2 : Options)
        (par : Chain),
      resolveNpmDependencyMap fs fuel src keys o par =
        resolveNpmDependencyMap fs fuel src keys o2 par) ∧
    (∀ (fs : FS) (fuel : Nat) (cp : String) (keys : List String) (o o2 : Options)
        (par : Chain), o.cwd = o2.cwd →
      resolveBowerDependencyMap fs fuel cp keys o par =
        resolveBowerDependencyMap fs fuel cp keys o2 par) ∧
    (∀ (fs : FS) (fuel : Nat) (src : String) (entries : List (String × DepValue))
        (o o2 : Options) (par : Chain),
      resolveTypeDependencyMap fs fuel src entries o par =
        resolveTypeDependencyMap fs fuel src entries o2 par) ∧
    (∀ (fs fs2 : FS) (rootPath : String) (fuel : Nat) (o : Options),
      DevDepsAgree fs fs2 rootPath → o.dev = false →
        resolveDependencies fs fuel o = resolveDependencies fs2 fuel o) := by
  refine ⟨fun o cwd => ⟨rfl, rfl, rfl, rfl⟩, ?_, ?_, ?_, ?_⟩
  · intro fs fuel src keys o o2 par
    cases fuel with
    | zero => rfl
    | succ fuel => exact npmMapGo_options (resolvers fs fuel) src keys o o2 par
  · intro fs fuel cp keys o o2 par hcwd
    cases fuel with
    | zero => rfl
    | succ fuel => exact bowerMapGo_options (resolvers fs fuel) cp keys o o2 par hcwd
  · intro fs fuel src entries o o2 par
    cases fuel with
    | zero => rfl
    | succ fuel =>
        exact typeMapGo_options (resolvers fs fuel) src
          (fun oa ob cwd pp acc cs => tryCandidates_options fs fuel oa ob cwd pp acc cs)
          entries o o2 par
  · intro fs fs2 rootPath fuel o hA hdev
    have hAg := resolversAgree_all fs fs2 rootPath hA fuel
    have hb : resolveBowerDependencies fs fuel o = resolveBowerDependencies fs2 fuel o := by
      unfold resolveBowerDependencies
      rw [hA.1]
      cases hf : fs2.findUp o.cwd bowerJsonFile with
      | none => rfl
      | some p =>
          show resolveBowerDependencyFrom fs fuel p
              (resolveBowerComponentPath fs (dirname p)) o none =
            resolveBowerDependencyFrom fs2 fuel p
              (resolveBowerComponentPath fs2 (dirname p)) o none
          rw [bowerComponentPath_agree fs fs2 rootPath hA (dirname p)]
          exact hAg.2.1 p (resolveBowerComponentPath fs2 (dirname p)) o none hdev
    have hn : resolveNpmDependencies fs fuel o = resolveNpmDependencies fs2 fuel o := by
      unfold resolveNpmDependencies
      rw [hA.1]
      cases hf : fs2.findUp o.cwd packageJsonFile with
      | none => rfl
      | some p =>
          show resolveNpmDependencyFrom fs fuel p o none =
            resolveNpmDependencyFrom fs2 fuel p o none
          exact hAg.1 p o none hdev
    have ht : resolveTypeDependencies fs fuel o = resolveTypeDependencies fs2 fuel o := by
      unfold resolveTypeDependencies
      rw [hA.2.1]
      cases hf : fs2.findConfigFile o.cwd with
      | none => rfl
      | some p =>
          show resolveTypeDependencyFrom fs fuel p o none =
            resolveTypeDependencyFrom fs2 fuel p o none
          exact hAg.2.2.1 p o none hdev
    unfold resolveDependencies
    rw [hb, hn, ht]

/-- Root manifest for the C6 witness, with one devDependency. -/
def c6Pkg : Manifest := { devDependencies := [(keyD, .one keyD)] }

/-- Root manifest for the C6 witness with the devDependency removed. -/
def c6Pkg2 : Manifest := {}

/-- Filesystem for the C6 witness (root `package.json` with a
devDependency). -/
def c6FS : FS :=
  { read := fun p => if p = srcTwo then some c6Pkg else none
    findUp := fun _ f => if f = packageJsonFile then some srcTwo else none
    findConfigFile := fun _ => none }

/-- Filesystem for the C6 witness after removing the devDependency. -/
def c6FS2 : FS :=
  { read := fun p => if p = srcTwo then some c6Pkg2 else none
    findUp := fun _ f => if f = packageJsonFile then some srcTwo else none
    findConfigFile := fun _ => none }

/-- The two C6 witness filesystems differ only in the root manifest's
`devDependencies`. -/
theorem c6_agree : DevDepsAgree c6FS c6FS2 srcTwo := by
  refine ⟨rfl, rfl, ?_, Or.inr ⟨c6Pkg, c6Pkg2, rfl, rfl, rfl⟩⟩
  intro p hp
  show (if p = srcTwo then some c6Pkg else none) =
    (if p = srcTwo then some c6Pkg2 else none)
  rw [if_neg hp, if_neg hp]

/-- C6 witness: with `dev` off, removing the root devDependency leaves the
whole resolution unchanged. -/
theorem claim_C6_dev_ambient_isolation_witness :
    dotOpts.dev = false ∧
    resolveDependencies c6FS 3 dotOpts = resolveDependencies c6FS2 3 dotOpts :=
  ⟨rfl, claim_C6_dev_ambient_isolation.2.2.2.2 c6FS c6FS2 srcTwo 3 dotOpts c6_agree rfl⟩

/-! ### C8: byte-order marks and the unified fetcher -/

/-- The byte-order mark U+FEFF. -/
def bomChar : Char := '﻿'

/-- The byte-order mark as a one-character string. -/
def bomStr : String := String.mk [bomChar]

/-- Model of the `strip-bom` package used by `src/utils/fs.ts`: remove one
leading U+FEFF, if present. -/
def stripBom (s : String) : String :=
  match s.data with
  | [] => s
  | c :: cs => if c = bomChar then String.mk cs else s

/-- The environment of `src/utils/fs.ts`: the local file reader, the
cached HTTP reader and the external JSON parser (`parse-json`), as
oracles (`none` models a failed read or parse). -/
structure FetchEnv where
  localRead : String → Option String
  httpRead : String → Option String
  parse : String → Option Manifest

/-- `readHttp` (`src/utils/fs.ts` lines 97–114): fetch through the cache
and status check; modelled by the oracle. -/
def readHttp (e : FetchEnv) (url : String) : Option String := e.httpRead url

/-- `readFileFrom` (lines 119–121): read from HTTP or the local
filesystem.  Note that no BOM stripping happens on this path. -/
def readFileFrom (e : FetchEnv) (location : String) : Option String :=
  if isHttp location then readHttp e location else e.localRead location

/-- `readJson` (lines 59–63): local read, then `stripBom`, then parse. -/
def readJson (e : FetchEnv) (path : String) : Option Manifest :=
  (e.localRead path).bind (fun contents => e.parse (stripBom contents))

/-- `readJsonFrom` (lines 126–130): unified read, then `stripBom`, then
parse. -/
def readJsonFrom (e : FetchEnv) (location : String) : Option Manifest :=
  (readFileFrom e location).bind (fun contents => e.parse (stripBom contents))

/-- Stripping the BOM from a BOM-prefixed text yields the text. -/
theorem stripBom_bom_append (t : String) : stripBom (bomStr ++ t) = t := rfl

/-- Plain text for the C8 counterexample. -/
def c8Text : String := "hello"

/-- BOM-prefixed text for the C8 counterexample. -/
def c8BomText : String := bomStr ++ c8Text

/-- Location for the C8 counterexample. -/
def c8Path : String := "local.json"

/-- Fetch environment for C8: the local file holds BOM-prefixed text. -/
def c8Env : FetchEnv :=
  { localRead := fun _ => some c8BomText
    httpRead := fun _ => none
    parse := fun _ => some {} }

/-- C8 counterexample: the unified text fetch `readFileFrom` returns the
fetched text with its leading byte-order mark intact — the text returned
to the caller is not BOM-stripped, contrary to the claim.  (Only the JSON
reads strip it.) -/
theorem claim_C8_counterexample :
    readFileFrom c8Env c8Path = some c8BomText ∧
    strStartsWith c8BomText bomStr = true ∧
    stripBom c8BomText ≠ c8BomText := by
  refine ⟨rfl, rfl, ?_⟩
  decide

/-- C8 (amended): the unified JSON reads (`readJsonFrom`, and the local
`readJson`) strip one leading byte-order mark from the fetched text
before handing it to the parser; the plain unified text read
(`readFileFrom`) returns the fetched text unmodified. -/
theorem claim_C8_json_reads_strip_bom :
    (∀ (e : FetchEnv) (location t : String),
      readFileFrom e location = some (bomStr ++ t) →
        readJsonFrom e location = e.parse t) ∧
    (∀ (e : FetchEnv) (path t : String),
      e.localRead path = some (bomStr ++ t) →
        readJson e path = e.parse t) ∧
    (∀ (e : FetchEnv) (location c : String),
      readFileFrom e location = some c →
        readJsonFrom e location = e.parse (stripBom c)) ∧
    (∀ (e : FetchEnv) (location : String),
      readFileFrom e location =
        (if isHttp location then e.httpRead location else e.localRead location)) := by
  refine ⟨?_, ?_, ?_, fun e location => rfl⟩
  · intro e location t h
    unfold readJsonFrom
    rw [h]
    show e.parse (stripBom (bomStr ++ t)) = e.parse t
    rw [stripBom_bom_append]
  · intro e path t h
    unfold readJson
    rw [h]
    show e.parse (stripBom (bomStr ++ t)) = e.parse t
    rw [stripBom_bom_append]
  · intro e location c h
    unfold readJsonFrom
    rw [h]
    rfl

/-- C8 witness: on the concrete environment, the fetched text is
BOM-prefixed and the JSON read parses the stripped text. -/
theorem claim_C8_json_reads_strip_bom_witness :
    readFileFrom c8Env c8Path = some (bomStr ++ c8Text) ∧
    readJsonFrom c8Env c8Path = c8Env.parse c8Text :=
  ⟨rfl, claim_C8_json_reads_strip_bom.1 c8Env c8Path c8Text rfl⟩
